import Mathlib

/-!
Verification of the kazeta-plus coordination core against its specification.

Each section shallowly embeds one Rust module of the repository:

* `src/overlay/src/ipc.rs`          – IPC server line reader
* `src/input-daemon/src/main.rs`    – global hotkey debounce
* `src/overlay/src/state.rs`        – overlay screen state machine, toasts,
                                      achievement tracker and filter
* `src/overlay/src/playtime.rs`     – playtime sessions and database
* `src/overlay/src/controllers.rs`  – controller-to-player assignment table
* `src/bios/src/utils.rs`           – game-launch / session-restart sequencing

Machine integers are modelled as `Nat`; the one place where wrap-around is
observable from attacker-controlled input (the `u32` earned counter of the
achievement tracker) carries an explicit `% 2^32`.  `Instant` values are
modelled as milliseconds since an arbitrary epoch, `SystemTime` values as Unix
seconds.  Filesystem and process effects are modelled as explicit effect
values returned by the embedded functions.
-/

/-! ## IPC reader (src/overlay/src/ipc.rs) -/

/-- One iteration result of `reader.lines()` in `IpcServer::read_message`:
either a successfully read line (its text), or a read error. -/
inductive LineEvent where
  | ok (s : String)
  | readErr
deriving DecidableEq

/-- Embedding of `IpcServer::read_message` (ipc.rs lines 192-216), generic in
the message type and the serde decoder.  The Rust loop walks the lines of the
connection: a line that parses returns `Some(msg)` immediately, a parse error
is logged and the loop continues, a read error breaks the loop; falling off
the end returns `None`. -/
def read_message {M : Type} (decode : String → Option M) : List LineEvent → Option M
  | [] => none
  | .readErr :: _ => none
  | .ok s :: rest =>
    match decode s with
    | some m => some m
    | none => read_message decode rest

/-- Embedding of `IpcServer::poll_messages` (ipc.rs lines 167-190): each
accepted connection contributes the result of one `read_message` call, in
accept order. -/
def poll_messages {M : Type} (decode : String → Option M) (conns : List (List LineEvent)) : List M :=
  conns.filterMap (read_message decode)

/-- The well-formed messages of a connection, in the order sent, up to the
first read error: the lines the spec says the reader should yield. -/
def conn_well_formed {M : Type} (decode : String → Option M) : List LineEvent → List M
  | [] => []
  | .readErr :: _ => []
  | .ok s :: rest =>
    match decode s with
    | some m => m :: conn_well_formed decode rest
    | none => conn_well_formed decode rest

/-- A two-message decoder used to exhibit a concrete connection whose second
message is dropped. -/
def decode₀ : String → Option Nat :=
  fun s => if s = "a" then some 0 else if s = "b" then some 1 else none

/-! ## Input daemon global debounce (src/input-daemon/src/main.rs) -/

/-- `HOTKEY_DEBOUNCE_MS` from input-daemon main.rs line 33. -/
def HOTKEY_DEBOUNCE_MS : Nat := 300

/-- Embedding of `GlobalState::try_trigger` (main.rs lines 53-61).  The state
is `last_hotkey_time` in milliseconds; `now - last` is the saturating
`Instant::duration_since` (the clock is monotone, so `Nat` subtraction
matches).  Returns whether to emit, and the new `last_hotkey_time`. -/
def try_trigger (last_hotkey_time now : Nat) : Bool × Nat :=
  if now - last_hotkey_time > HOTKEY_DEBOUNCE_MS then (true, now)
  else (false, last_hotkey_time)

/-- The sequence of toggles actually emitted for a sequence of hotkey press
times (the mutex serialises `toggle_overlay` calls from all device threads;
`events` is the serialisation order).  Each press runs `try_trigger` against
the shared `last_hotkey_time` and is emitted exactly when it returns true. -/
def run_hotkeys (last_hotkey_time : Nat) : List Nat → List Nat
  | [] => []
  | t :: ts =>
    let r := try_trigger last_hotkey_time t
    if r.1 then t :: run_hotkeys r.2 ts else run_hotkeys r.2 ts

/-! ## Toast manager (src/overlay/src/state.rs lines 837-884) -/

/-- `ToastStyle` from ipc.rs lines 112-119. -/
inductive ToastStyle where
  | info
  | success
  | warning
  | error
deriving DecidableEq

/-- `Toast` from state.rs lines 837-843.  `created_at` is the `Instant`
(milliseconds), `duration` the `Duration` (milliseconds). -/
structure Toast where
  message : String
  icon : Option String
  style : ToastStyle
  created_at : Nat
  duration : Nat
deriving DecidableEq

/-- `ToastManager` from state.rs lines 845-848: a queue (front of the list is
the front of the `VecDeque`) and the visible-count bound. -/
structure ToastManager where
  queue : List Toast
  max_visible : Nat
deriving DecidableEq

/-- `ToastManager::new` (state.rs lines 851-856). -/
def ToastManager.new : ToastManager := { queue := [], max_visible := 3 }

/-- `ToastManager::add_toast` (state.rs lines 858-868): `push_back` of a toast
created now. -/
def add_toast (m : ToastManager) (now : Nat) (message : String) (icon : Option String)
    (style : ToastStyle) (duration_ms : Nat) : ToastManager :=
  { m with queue := m.queue ++ [{ message := message, icon := icon, style := style,
                                  created_at := now, duration := duration_ms }] }

/-- `ToastManager::update` (state.rs lines 870-875): retain the toasts with
`now.duration_since(created_at) < duration`; `duration_since` saturates at
zero, which `Nat` subtraction matches. -/
def ToastManager.update (m : ToastManager) (now : Nat) : ToastManager :=
  { m with queue := m.queue.filter (fun t => now - t.created_at < t.duration) }

/-- `ToastManager::get_visible_toasts` (state.rs lines 877-879): the first
`max_visible` toasts of the queue. -/
def get_visible_toasts (m : ToastManager) : List Toast :=
  m.queue.take m.max_visible

/-! ## Achievement tracker and filter (src/overlay/src/state.rs lines 12-207) -/

/-- `AchievementProgress` from ipc.rs lines 106-110 (per-achievement
current/target pair; renamed to avoid clashing with the tracker counters of
state.rs, which share the Rust name across modules). -/
structure AchievementProgressPair where
  current : Nat
  target : Nat
deriving DecidableEq

/-- `AchievementInfo` from ipc.rs lines 83-103.  `rarity_percent` is an `f32`
in Rust; it is display-only and never inspected by the embedded operations,
so it is modelled as an exact rational. -/
structure AchievementInfo where
  id : Nat
  title : String
  description : String
  points : Nat
  earned : Bool
  earned_hardcore : Bool
  rarity_percent : Option Rat
  earned_at : Option Nat
  progress : Option AchievementProgressPair
deriving DecidableEq

instance : Inhabited AchievementInfo :=
  ⟨{ id := 0, title := "", description := "", points := 0, earned := false,
     earned_hardcore := false, rarity_percent := none, earned_at := none,
     progress := none }⟩

/-- `AchievementFilter` from state.rs lines 113-118. -/
inductive AchievementFilter where
  | all
  | earned
  | unearned
deriving DecidableEq

/-- Character-list version of `str::starts_with` used to build `contains`. -/
def chars_start (s pat : List Char) : Bool :=
  match pat, s with
  | [], _ => true
  | _ :: _, [] => false
  | p :: ps, c :: cs => p = c && chars_start cs ps

/-- `str::contains` on character lists: some suffix of `s` starts with `pat`. -/
def chars_contain (s pat : List Char) : Bool :=
  match s with
  | [] => pat.isEmpty
  | _ :: rest => chars_start s pat || chars_contain rest pat

/-- `String::contains` as used by the achievement search. -/
def str_contains (s pat : String) : Bool :=
  chars_contain s.data pat.data

/-- The filter predicate of `AchievementFilterState::apply_filter` (state.rs
lines 167-171). -/
def matches_filter (filter : AchievementFilter) (a : AchievementInfo) : Bool :=
  match filter with
  | .all => true
  | .earned => a.earned
  | .unearned => !a.earned

/-- The search predicate of `AchievementFilterState::apply_filter` (state.rs
lines 173-179): empty query matches everything, otherwise case-insensitive
containment in title or description. -/
def matches_search (search_query : String) (a : AchievementInfo) : Bool :=
  if search_query = "" then true
  else
    let query := search_query.toLower
    str_contains a.title.toLower query || str_contains a.description.toLower query

/-- `AchievementFilterState` from state.rs lines 139-145. -/
structure AchievementFilterState where
  filter : AchievementFilter
  search_query : String
  selected_filter : Nat
  scroll_offset : Nat
  filtered_indices : List Nat
deriving DecidableEq

/-- `AchievementFilterState::new` (state.rs lines 148-156). -/
def AchievementFilterState.new : AchievementFilterState :=
  { filter := .all, search_query := "", selected_filter := 0, scroll_offset := 0,
    filtered_indices := [] }

/-- `AchievementFilterState::set_filter` (state.rs lines 158-161). -/
def set_filter (st : AchievementFilterState) (filter : AchievementFilter) :
    AchievementFilterState :=
  { st with filter := filter, scroll_offset := 0 }

/-- `AchievementFilterState::update_search` (state.rs lines 187-190). -/
def update_search (st : AchievementFilterState) (query : String) :
    AchievementFilterState :=
  { st with search_query := query, scroll_offset := 0 }

/-- The index-collecting loop of `apply_filter` (state.rs lines 163-185):
walk `achievements` with the running enumeration index `i`, pushing `i` when
both predicates match. -/
def filter_loop (filter : AchievementFilter) (search_query : String) (i : Nat) :
    List AchievementInfo → List Nat
  | [] => []
  | a :: rest =>
    if matches_filter filter a && matches_search search_query a then
      i :: filter_loop filter search_query (i + 1) rest
    else
      filter_loop filter search_query (i + 1) rest

/-- `AchievementFilterState::apply_filter` (state.rs lines 163-185): clear
`filtered_indices` and recompute it from the achievement list. -/
def apply_filter (st : AchievementFilterState) (achievements : List AchievementInfo) :
    AchievementFilterState :=
  { st with filtered_indices := filter_loop st.filter st.search_query 0 achievements }

/-- The operations of claim C9 on the filter state paired with the current
achievement list.  The spec says the filtered-index vector is recomputed
whenever filter, search, or list changes, and every consumer of `set_filter`
and `update_search` in the repository immediately follows it with
`apply_filter`, so each operation carries its recomputation. -/
inductive FilterOp where
  | setFilter (f : AchievementFilter)
  | setSearch (q : String)
  | setList (l : List AchievementInfo)

/-- One C9 operation: mutate, then recompute via `apply_filter` against the
current list. -/
def filter_step (s : AchievementFilterState × List AchievementInfo) (op : FilterOp) :
    AchievementFilterState × List AchievementInfo :=
  match op with
  | .setFilter f => (apply_filter (set_filter s.1 f) s.2, s.2)
  | .setSearch q => (apply_filter (update_search s.1 q) s.2, s.2)
  | .setList l => (apply_filter s.1 l, l)

/-- A sequence of C9 operations. -/
def filter_run (s : AchievementFilterState × List AchievementInfo) (ops : List FilterOp) :
    AchievementFilterState × List AchievementInfo :=
  ops.foldl filter_step s

/-- `AchievementProgress` from state.rs lines 13-17 (tracker counters). -/
structure AchievementProgress where
  total : Nat
  earned : Nat
deriving DecidableEq

/-- `AchievementTracker` from state.rs lines 20-26. -/
structure AchievementTracker where
  game_id : Option Nat
  game_title : String
  console : String
  achievements : List AchievementInfo
  progress : AchievementProgress
deriving DecidableEq

/-- The modulus of the `u32` earned counter. -/
def U32_MOD : Nat := 2 ^ 32

/-- The `iter_mut().find(...)` mutation of `unlock_achievement` (state.rs
lines 66-81): walk the list, and at the first achievement whose id matches,
set `earned` if it was unset.  Returns the new list and whether a flag was
newly set (which is when the counter increments). -/
def unlock_list (achievement_id : Nat) : List AchievementInfo → List AchievementInfo × Bool
  | [] => ([], false)
  | a :: rest =>
    if a.id = achievement_id then
      if a.earned then (a :: rest, false)
      else ({ a with earned := true } :: rest, true)
    else
      let r := unlock_list achievement_id rest
      (a :: r.1, r.2)

/-- `AchievementTracker::unlock_achievement` (state.rs lines 66-81): find the
first achievement with the given id; if present and not yet earned, set its
flag and increment `progress.earned` (a `u32`, hence modulo 2^32). -/
def unlock_achievement (t : AchievementTracker) (achievement_id : Nat) : AchievementTracker :=
  let r := unlock_list achievement_id t.achievements
  { t with
    achievements := r.1,
    progress :=
      if r.2 then { t.progress with earned := (t.progress.earned + 1) % U32_MOD }
      else t.progress }

/-! ## Overlay screen state machine (src/overlay/src/state.rs, menu_config.rs) -/

/-- `OverlayScreen` from ipc.rs lines 121-140. -/
inductive OverlayScreen where
  | main
  | settings
  | achievements
  | performance
  | playtime
  | controllers
  | bluetoothPairing
  | controllerAssign
  | gamepadTester
  | hotkeySettings
  | menuCustomization
  | themeSelection
  | quitConfirm
deriving DecidableEq

/-- `ControllerInput` from input.rs lines 7-21. -/
inductive ControllerInput where
  | up
  | down
  | left
  | right
  | select
  | back
  | secondary
  | guide
  | lb
  | rb
  | lt
  | rt
deriving DecidableEq

/-- `MenuItemId` from menu_config.rs lines 8-18. -/
inductive MenuItemId where
  | controllers
  | settings
  | achievements
  | performance
  | playtime
  | quickSave
  | resume
  | quit
deriving DecidableEq

/-- `MenuItemId::all` (menu_config.rs lines 34-45). -/
def MenuItemId.all : List MenuItemId :=
  [.controllers, .settings, .achievements, .performance, .playtime,
   .quickSave, .resume, .quit]

/-- `MenuItemConfig` from menu_config.rs lines 49-54. -/
structure MenuItemConfig where
  id : MenuItemId
  visible : Bool
  order : Nat
deriving DecidableEq

/-- The `Default` impl of `MenuConfig` (menu_config.rs lines 63-80): every
item visible, order equal to its position in `MenuItemId::all`. -/
def default_menu_config : List MenuItemConfig :=
  MenuItemId.all.enum.map (fun p => { id := p.2, visible := true, order := p.1 })

/-- Stable insertion step for `sort_by_key`: an element is placed before the
first element whose key is not smaller, so elements with equal keys keep
their original relative order. -/
def insert_by_order (a : MenuItemConfig) : List MenuItemConfig → List MenuItemConfig
  | [] => [a]
  | b :: rest => if b.order < a.order then b :: insert_by_order a rest else a :: b :: rest

/-- Stable sort by the `order` key (Rust `sort_by_key` is stable). -/
def sort_by_order (l : List MenuItemConfig) : List MenuItemConfig :=
  l.foldr insert_by_order []

/-- `MenuConfig::get_visible_items` (menu_config.rs lines 89-97): keep the
visible items, stably sort by `order`, project to ids. -/
def get_visible_items (items : List MenuItemConfig) : List MenuItemId :=
  ((sort_by_order (items.filter (fun i => i.visible))).map (fun i => i.id))

/-- Number of entries of `CONTROLLER_MENU_OPTIONS` (controllers.rs lines
366-373).  state.rs line 581 writes `CONTROLLER_MENU_OPTIONS - 1` for the
lower bound of the last option, which reads the constant as its entry
count. -/
def CONTROLLER_MENU_OPTIONS_COUNT : Nat := 6

/-- `SETTINGS_OPTIONS` from state.rs line 535. -/
def SETTINGS_OPTIONS : Nat := 2

/-- An externally observable side effect of the overlay. -/
inductive Effect where
  | writeFile (path content : String)
  | sigterm (process : String)
deriving DecidableEq

/-- The emulator process names of `signal_game_quit` (state.rs line 826). -/
def EMULATOR_PROCS : List String :=
  ["mgba-qt", "vbam", "visualboyadvance-m", "retroarch", "dolphin-emu"]

/-- Effects of `signal_game_quit` (state.rs lines 809-835): create
`/tmp/kazeta-quit-game` containing the single line `quit` (`writeln` appends
the newline), then best-effort SIGTERM each hard-coded emulator process. -/
def signal_game_quit_effects : List Effect :=
  .writeFile "/tmp/kazeta-quit-game" "quit\n" :: EMULATOR_PROCS.map .sigterm

/-- `OverlayState` (state.rs lines 209-228) restricted to the fields the
input state machine reads or writes; toast, achievement, performance,
playtime and theme sub-states are carried elsewhere in this file, and the
visible main-menu items (`menu_config.config().get_visible_items()`) and the
theme-preset count (`Theme::all_presets().len()`, themes.rs lines 171-179)
are carried as data since no input path mutates them (the menu-customization
Select handler only logs).  `effects` records filesystem and process
effects. -/
structure OverlayState where
  visible : Bool
  current_screen : OverlayScreen
  selected_option : Nat
  main_menu_scroll_offset : Nat
  settings_selected_option : Nat
  settings_scroll_offset : Nat
  menu_customization_selected : Nat
  menu_customization_scroll_offset : Nat
  theme_selected : Nat
  theme_selection_scroll_offset : Nat
  quit_confirm_selected : Nat
  controllers_selected_menu_item : Nat
  menu_items : List MenuItemId
  theme_count : Nat
  effects : List Effect
deriving DecidableEq

/-- `OverlayState::adjust_scroll_offset` (state.rs lines 420-434): scroll up
to the selection, or down so the selection is the last visible row, then
clamp to `total_items.saturating_sub(max_visible)`. -/
def adjust_scroll_offset (selected scroll_offset max_visible total_items : Nat) : Nat :=
  let s :=
    if selected < scroll_offset then selected
    else if selected ≥ scroll_offset + max_visible then selected - max_visible + 1
    else scroll_offset
  let max_scroll := total_items - max_visible
  if s > max_scroll then max_scroll else s

/-- `OverlayState::handle_main_menu_input` (state.rs lines 436-512). -/
def handle_main_menu_input (s : OverlayState) (input : ControllerInput) : OverlayState :=
  let item_count := s.menu_items.length
  match input with
  | .up =>
    if s.selected_option > 0 then
      let sel := s.selected_option - 1
      { s with selected_option := sel,
               main_menu_scroll_offset :=
                 adjust_scroll_offset sel s.main_menu_scroll_offset 6 item_count }
    else s
  | .down =>
    if s.selected_option < item_count - 1 then
      let sel := s.selected_option + 1
      { s with selected_option := sel,
               main_menu_scroll_offset :=
                 adjust_scroll_offset sel s.main_menu_scroll_offset 6 item_count }
    else s
  | .select =>
    match s.menu_items.get? s.selected_option with
    | some .achievements => { s with current_screen := .achievements }
    | some .performance => { s with current_screen := .performance }
    | some .settings => { s with current_screen := .settings, settings_selected_option := 0 }
    | some .controllers =>
      { s with current_screen := .controllers, controllers_selected_menu_item := 0 }
    | some .playtime => { s with current_screen := .playtime }
    | some .quickSave => s
    | some .resume => { s with visible := false }
    | some .quit => { s with current_screen := .quitConfirm, quit_confirm_selected := 0 }
    | none => s
  | .back => { s with visible := false }
  | .guide => { s with visible := false }
  | _ => s

/-- `OverlayState::handle_settings_input` (state.rs lines 534-571). -/
def handle_settings_input (s : OverlayState) (input : ControllerInput) : OverlayState :=
  match input with
  | .up =>
    if s.settings_selected_option > 0 then
      { s with settings_selected_option := s.settings_selected_option - 1 }
    else s
  | .down =>
    if s.settings_selected_option < SETTINGS_OPTIONS - 1 then
      { s with settings_selected_option := s.settings_selected_option + 1 }
    else s
  | .select =>
    match s.settings_selected_option with
    | 0 => { s with current_screen := .menuCustomization, menu_customization_selected := 0 }
    | 1 => { s with current_screen := .themeSelection, theme_selected := 0 }
    | _ => s
  | .back => { s with current_screen := .main }
  | _ => s

/-- `OverlayState::handle_controllers_input` (state.rs lines 573-615). -/
def handle_controllers_input (s : OverlayState) (input : ControllerInput) : OverlayState :=
  match input with
  | .up =>
    if s.controllers_selected_menu_item > 0 then
      { s with controllers_selected_menu_item := s.controllers_selected_menu_item - 1 }
    else s
  | .down =>
    if s.controllers_selected_menu_item < CONTROLLER_MENU_OPTIONS_COUNT - 1 then
      { s with controllers_selected_menu_item := s.controllers_selected_menu_item + 1 }
    else s
  | .select =>
    match s.controllers_selected_menu_item with
    | 1 => { s with current_screen := .gamepadTester }
    | 3 => { s with current_screen := .hotkeySettings }
    | _ => s
  | .back => { s with current_screen := .main, selected_option := 3 }
  | _ => s

/-- `OverlayState::handle_gamepad_tester_input` (state.rs lines 617-628). -/
def handle_gamepad_tester_input (s : OverlayState) (input : ControllerInput) : OverlayState :=
  match input with
  | .back => { s with current_screen := .controllers, controllers_selected_menu_item := 1 }
  | _ => s

/-- `OverlayState::handle_achievements_input` (state.rs lines 514-522). -/
def handle_achievements_input (s : OverlayState) (input : ControllerInput) : OverlayState :=
  match input with
  | .back => { s with current_screen := .main }
  | _ => s

/-- `OverlayState::handle_performance_input` (state.rs lines 524-532). -/
def handle_performance_input (s : OverlayState) (input : ControllerInput) : OverlayState :=
  match input with
  | .back => { s with current_screen := .main }
  | _ => s

/-- `OverlayState::handle_playtime_input` (state.rs lines 630-638). -/
def handle_playtime_input (s : OverlayState) (input : ControllerInput) : OverlayState :=
  match input with
  | .back => { s with current_screen := .main }
  | _ => s

/-- `OverlayState::handle_menu_customization_input` (state.rs lines 640-682):
the list is `MenuItemId::all()` (8 items), `MAX_VISIBLE = 6`; Select only
logs. -/
def handle_menu_customization_input (s : OverlayState) (input : ControllerInput) :
    OverlayState :=
  let item_count := MenuItemId.all.length
  match input with
  | .up =>
    if s.menu_customization_selected > 0 then
      let sel := s.menu_customization_selected - 1
      { s with menu_customization_selected := sel,
               menu_customization_scroll_offset :=
                 adjust_scroll_offset sel s.menu_customization_scroll_offset 6 item_count }
    else s
  | .down =>
    if s.menu_customization_selected < item_count - 1 then
      let sel := s.menu_customization_selected + 1
      { s with menu_customization_selected := sel,
               menu_customization_scroll_offset :=
                 adjust_scroll_offset sel s.menu_customization_scroll_offset 6 item_count }
    else s
  | .select => s
  | .back => { s with current_screen := .settings, settings_selected_option := 0 }
  | _ => s

/-- `OverlayState::handle_theme_selection_input` (state.rs lines 684-742):
the list is `Theme::all_presets()`, `MAX_VISIBLE = 5`; Select only sets the
theme and toasts. -/
def handle_theme_selection_input (s : OverlayState) (input : ControllerInput) :
    OverlayState :=
  let theme_count := s.theme_count
  match input with
  | .up =>
    if s.theme_selected > 0 then
      let sel := s.theme_selected - 1
      { s with theme_selected := sel,
               theme_selection_scroll_offset :=
                 adjust_scroll_offset sel s.theme_selection_scroll_offset 5 theme_count }
    else s
  | .down =>
    if s.theme_selected < theme_count - 1 then
      let sel := s.theme_selected + 1
      { s with theme_selected := sel,
               theme_selection_scroll_offset :=
                 adjust_scroll_offset sel s.theme_selection_scroll_offset 5 theme_count }
    else s
  | .select => s
  | .back => { s with current_screen := .settings, settings_selected_option := 1 }
  | _ => s

/-- `OverlayState::handle_quit_confirm_input` (state.rs lines 744-790): any
directional input toggles Cancel (0) / Quit (1); Select on Quit performs
`signal_game_quit` and hides the overlay; Select on Cancel and Back return to
Main with `selected_option = 5` (the source comment reads: keep quit option
selected in main menu). -/
def handle_quit_confirm_input (s : OverlayState) (input : ControllerInput) : OverlayState :=
  match input with
  | .up | .down | .left | .right =>
    { s with quit_confirm_selected := if s.quit_confirm_selected = 0 then 1 else 0 }
  | .select =>
    if s.quit_confirm_selected = 1 then
      { s with visible := false, effects := s.effects ++ signal_game_quit_effects }
    else
      { s with current_screen := .main, selected_option := 5 }
  | .back => { s with current_screen := .main, selected_option := 5 }
  | _ => s

/-- `OverlayState::handle_hotkey_settings_input` (state.rs lines 792-804). -/
def handle_hotkey_settings_input (s : OverlayState) (input : ControllerInput) : OverlayState :=
  match input with
  | .back => { s with current_screen := .controllers, controllers_selected_menu_item := 3 }
  | _ => s

/-- `OverlayState::handle_input` (state.rs lines 399-417): ignore input while
hidden, otherwise dispatch on the current screen.  The source match has no
arms for `BluetoothPairing` and `ControllerAssign` (no input path reaches
them); they are mapped to the identity. -/
def handle_input (s : OverlayState) (input : ControllerInput) : OverlayState :=
  if s.visible = false then s
  else
    match s.current_screen with
    | .main => handle_main_menu_input s input
    | .achievements => handle_achievements_input s input
    | .performance => handle_performance_input s input
    | .settings => handle_settings_input s input
    | .controllers => handle_controllers_input s input
    | .gamepadTester => handle_gamepad_tester_input s input
    | .playtime => handle_playtime_input s input
    | .hotkeySettings => handle_hotkey_settings_input s input
    | .menuCustomization => handle_menu_customization_input s input
    | .themeSelection => handle_theme_selection_input s input
    | .quitConfirm => handle_quit_confirm_input s input
    | .bluetoothPairing => s
    | .controllerAssign => s

/-- A sequence of polled inputs delivered to the overlay. -/
def run_inputs (s : OverlayState) (inputs : List ControllerInput) : OverlayState :=
  inputs.foldl handle_input s

/-- The overlay state right after the overlay is shown: `toggle_visibility`
(state.rs lines 277-284) resets to the Main screen with selection 0; all
scroll offsets and sub-selections start at 0 (`OverlayState::new`, state.rs
lines 255-275); the visible menu items come from the default menu config and
the theme count from the five presets of themes.rs. -/
def init_overlay_state : OverlayState :=
  { visible := true
    current_screen := .main
    selected_option := 0
    main_menu_scroll_offset := 0
    settings_selected_option := 0
    settings_scroll_offset := 0
    menu_customization_selected := 0
    menu_customization_scroll_offset := 0
    theme_selected := 0
    theme_selection_scroll_offset := 0
    quit_confirm_selected := 0
    controllers_selected_menu_item := 0
    menu_items := get_visible_items default_menu_config
    theme_count := 5
    effects := [] }

/-! ## Playtime tracker (src/overlay/src/playtime.rs) -/

/-- `PlaytimeEntry` from playtime.rs lines 10-15.  `last_played` is a Unix
timestamp in seconds. -/
structure PlaytimeEntry where
  cart_id : String
  total_seconds : Nat
  last_played : Option Nat
  play_count : Nat
deriving DecidableEq

/-- `PlaytimeDatabase` (playtime.rs lines 19-21): the `HashMap` modelled as a
map from cart id to entry. -/
def PlaytimeDatabase : Type := String → Option PlaytimeEntry

/-- `SessionData` from playtime.rs lines 24-27.  `start_time` is the
`Instant` in milliseconds. -/
structure SessionData where
  cart_id : String
  start_time : Nat

/-- `PlaytimeTracker` (playtime.rs lines 30-34); the database path is not
part of the observable state. -/
structure PlaytimeTracker where
  current_session : Option SessionData
  database : PlaytimeDatabase

/-- The default entry of the `or_insert_with` closure in `add_playtime`
(playtime.rs lines 83-88). -/
def empty_playtime_entry (cart_id : String) : PlaytimeEntry :=
  { cart_id := cart_id, total_seconds := 0, last_played := none, play_count := 0 }

/-- `PlaytimeTracker::add_playtime` (playtime.rs lines 80-95): fetch or
create the entry for the cart, add the elapsed seconds, stamp `last_played`
with the current Unix time `now_ts`, increment `play_count`. -/
def add_playtime (db : PlaytimeDatabase) (cart_id : String) (seconds now_ts : Nat) :
    PlaytimeDatabase :=
  let e := (db cart_id).getD (empty_playtime_entry cart_id)
  fun k =>
    if k = cart_id then
      some { e with total_seconds := e.total_seconds + seconds,
                    last_played := some now_ts,
                    play_count := e.play_count + 1 }
    else db k

/-- `PlaytimeTracker::end_session` (playtime.rs lines 62-72): take the
pending session, compute `start_time.elapsed().as_secs()` (truncating
division of the elapsed milliseconds), and record it.  `now_ms` is the
monotone clock, `now_ts` the Unix clock. -/
def end_session (tr : PlaytimeTracker) (now_ms now_ts : Nat) : PlaytimeTracker :=
  match tr.current_session with
  | none => tr
  | some session =>
    let elapsed_secs := (now_ms - session.start_time) / 1000
    { current_session := none,
      database := add_playtime tr.database session.cart_id elapsed_secs now_ts }

/-- `PlaytimeTracker::start_session` (playtime.rs lines 50-59): save any
pending session first, then start the new one. -/
def start_session (tr : PlaytimeTracker) (now_ms now_ts : Nat) (cart_id : String) :
    PlaytimeTracker :=
  let tr2 := end_session tr now_ms now_ts
  { tr2 with current_session := some { cart_id := cart_id, start_time := now_ms } }

/-! ## Controller assignment table (src/overlay/src/controllers.rs) -/

/-- `MAX_PLAYERS` from controllers.rs line 12. -/
def MAX_PLAYERS : Nat := 4

/-- `ConnectedController` (controllers.rs lines 16-23) restricted to the
fields the assignment operations read or write (`name`, `uuid`,
`is_wireless` and `battery_level` are display-only). -/
structure ConnectedController where
  id : Nat
  assigned_player : Option Nat
deriving DecidableEq

instance : Inhabited ConnectedController := ⟨{ id := 0, assigned_player := none }⟩

/-- `ControllerState` (controllers.rs lines 79-105) restricted to the
controller list and the 4-slot player-assignment array (the remaining fields
are UI state). -/
structure CtrlState where
  controllers : List ConnectedController
  player_assignments : Fin 4 → Option Nat

/-- Write slot `i` of the assignment array, indexed like the Rust
`player_assignments[i]` (the embedded operations only index in bounds, which
the invariant guarantees; an out-of-range write is a no-op where Rust would
panic). -/
def set_slot (f : Fin 4 → Option Nat) (i : Nat) (v : Option Nat) : Fin 4 → Option Nat :=
  fun j => if j.val = i then v else f j

/-- Read slot `i` of the assignment array. -/
def get_slot (f : Fin 4 → Option Nat) (i : Nat) : Option Nat :=
  if h : i < 4 then f ⟨i, h⟩ else none

/-- The `position(|c| c.id == controller_id)` search of
`assign_controller_to_player` (controllers.rs lines 169-171). -/
def find_ctrl_index (controller_id : Nat) : List ConnectedController → Option Nat
  | [] => none
  | c :: rest =>
    if c.id = controller_id then some 0
    else (find_ctrl_index controller_id rest).map (· + 1)

/-- The clear-old-controller loop of `assign_controller_to_player`
(controllers.rs lines 182-190): clear `assigned_player` of the first
controller with the given id (the loop breaks after the first hit). -/
def clear_first_assigned (controller_id : Nat) :
    List ConnectedController → List ConnectedController
  | [] => []
  | c :: rest =>
    if c.id = controller_id then { c with assigned_player := none } :: rest
    else c :: clear_first_assigned controller_id rest

/-- `ControllerState::assign_controller_to_player` (controllers.rs lines
163-197): validate the player number, locate the controller, clear its old
slot, evict whichever controller held the requested slot, then write the new
assignment on both sides. -/
def assign_controller_to_player (s : CtrlState) (controller_id player : Nat) :
    Except String CtrlState :=
  if player = 0 ∨ player > MAX_PLAYERS then .error "Invalid player number"
  else
    match find_ctrl_index controller_id s.controllers with
    | none => .error "Controller not found"
    | some controller_idx =>
      let old_player := ((s.controllers.get? controller_idx).getD default).assigned_player
      let pa1 :=
        match old_player with
        | some old_p => set_slot s.player_assignments (old_p - 1) none
        | none => s.player_assignments
      let ctrls1 :=
        match get_slot pa1 (player - 1) with
        | some old_controller_id => clear_first_assigned old_controller_id s.controllers
        | none => s.controllers
      let ctrls2 :=
        ctrls1.set controller_idx
          { ((ctrls1.get? controller_idx).getD default) with assigned_player := some player }
      .ok { controllers := ctrls2, player_assignments := set_slot pa1 (player - 1) (some controller_id) }

/-- The `iter_mut().find(...)` mutation of `unassign_controller`
(controllers.rs lines 200-207): clear `assigned_player` of the first
controller with the given id, returning its previous assignment. -/
def unassign_list (controller_id : Nat) :
    List ConnectedController → List ConnectedController × Option Nat
  | [] => ([], none)
  | c :: rest =>
    if c.id = controller_id then
      ({ c with assigned_player := none } :: rest, c.assigned_player)
    else
      let r := unassign_list controller_id rest
      (c :: r.1, r.2)

/-- `ControllerState::unassign_controller` (controllers.rs lines 200-207). -/
def unassign_controller (s : CtrlState) (controller_id : Nat) : CtrlState :=
  { controllers := (unassign_list controller_id s.controllers).1,
    player_assignments :=
      match (unassign_list controller_id s.controllers).2 with
      | some player => set_slot s.player_assignments (player - 1) none
      | none => s.player_assignments }

/-- The `enumerate` loop of `auto_assign_all` (controllers.rs lines 229-235)
after the clearing pass: controller at enumeration index `i` gets player
`i + 1` when `i < MAX_PLAYERS` and stays cleared otherwise. -/
def auto_assign_list (i : Nat) : List ConnectedController → List ConnectedController
  | [] => []
  | c :: rest =>
    { c with assigned_player := if i < MAX_PLAYERS then some (i + 1) else none }
      :: auto_assign_list (i + 1) rest

/-- `ControllerState::auto_assign_all` (controllers.rs lines 220-236): clear
every assignment, then give controller `i` player `i+1` for `i <
MAX_PLAYERS`; slot `i` receives the id of controller `i` when it exists and
stays cleared otherwise. -/
def auto_assign_all (s : CtrlState) : CtrlState :=
  { controllers := auto_assign_list 0 s.controllers,
    player_assignments := fun j => (s.controllers.get? j.val).map (fun c => c.id) }

/-- Range check on a stored assignment: player numbers live in 1..4. -/
def player_in_range (c : ConnectedController) : Bool :=
  match c.assigned_player with
  | none => true
  | some p => 1 ≤ p && p ≤ MAX_PLAYERS

/-- The controller-table invariant of claim C6: controller ids are distinct
(each slot can then reference at most one controller), stored player numbers
are in range, and `controllers[i].assigned_player = Some(p)` holds iff
`player_assignments[p-1] = Some(controllers[i].id)`. -/
def CtrlInv (s : CtrlState) : Prop :=
  (s.controllers.map (fun c => c.id)).Nodup
  ∧ (∀ c ∈ s.controllers, player_in_range c = true)
  ∧ (∀ c ∈ s.controllers, ∀ p : Fin 4,
      (c.assigned_player = some (p.val + 1) ↔ s.player_assignments p = some c.id))

instance (s : CtrlState) : Decidable (CtrlInv s) := by
  unfold CtrlInv
  infer_instance

/-! ## BIOS launch sequencing (src/bios/src/utils.rs) -/

/-- The observable side effects of `trigger_game_launch` and
`trigger_session_restart`, in program order. -/
inductive BiosEffect where
  | startOverlayDaemon
  | notifyGameStarted
  | setupRetroAchievements
  | writeLaunchCmd
  | logError (msg : String)
  | createSentinel (path : String)
deriving DecidableEq

/-- The screen returned by `trigger_session_restart` (utils.rs line 117);
only the variant this path produces is modelled. -/
inductive BiosScreen where
  | fadingOut
deriving DecidableEq

/-- `trigger_session_restart` (utils.rs lines 98-118): create the
restart-sentinel file and enter the fade-out screen. -/
def trigger_session_restart : List BiosEffect × BiosScreen :=
  ([.createSentinel "/var/kazeta/state/.RESTART_SESSION_SENTINEL"], .fadingOut)

/-- `trigger_game_launch` (utils.rs lines 120-154), parameterised by whether
`save::write_launch_command` succeeds: start the overlay, notify the game
start, set up achievements, write the launch command (logging on failure),
then unconditionally fall through to `trigger_session_restart`. -/
def trigger_game_launch (write_launch_ok : Bool) : List BiosEffect × BiosScreen :=
  let head : List BiosEffect := [.startOverlayDaemon, .notifyGameStarted, .setupRetroAchievements]
  let write : List BiosEffect :=
    if write_launch_ok then [.writeLaunchCmd]
    else [.logError "Failed to write launch command"]
  let rest := trigger_session_restart
  (head ++ write ++ rest.1, rest.2)

/-- What `assign_controller_to_player` does to the controller at position
`j` (original value `c`) when the controller at position `idx` is assigned
player `p`: position `idx` gets the new player, the controller that
previously held player `p` is evicted, everyone else is untouched. -/
def assign_target (idx p j : Nat) (c : ConnectedController) : ConnectedController :=
  if j = idx then { c with assigned_player := some p }
  else if c.assigned_player = some p then { c with assigned_player := none }
  else c

/-- What `assign_controller_to_player` does to the assignment array when
controller `cid` is assigned player `p`: slot `p-1` now holds `cid`, the slot
that previously held `cid` is cleared, all other slots are untouched. -/
def assign_slots (spa : Fin 4 → Option Nat) (cid p : Nat) : Fin 4 → Option Nat :=
  fun q => if q.val = p - 1 then some cid else if spa q = some cid then none else spa q

/-! ## Concrete example states used by the witness theorems -/

/-- A one-element toast queue: toast created at 0 ms lasting 100 ms. -/
def toast₀ : Toast :=
  { message := "hi", icon := none, style := .info, created_at := 0, duration := 100 }

/-- A toast manager holding `toast₀` with the standard visible bound. -/
def toast_mgr₀ : ToastManager := { queue := [toast₀], max_visible := 3 }

/-- A playtime tracker with an empty database and a session on cart `g`
started at 0 ms. -/
def playtime_tr₀ : PlaytimeTracker :=
  { current_session := some { cart_id := "g", start_time := 0 },
    database := fun _ => none }

/-- Two connected, unassigned controllers with ids 1 and 2. -/
def ctrl_state₀ : CtrlState :=
  { controllers := [{ id := 1, assigned_player := none }, { id := 2, assigned_player := none }],
    player_assignments := fun _ => none }

/-- Two achievements, ids 1 (unearned) and 2 (earned). -/
def ach₁ : AchievementInfo :=
  { id := 1, title := "First", description := "first one", points := 10, earned := false,
    earned_hardcore := false, rarity_percent := none, earned_at := none, progress := none }

/-- Second example achievement (already earned). -/
def ach₂ : AchievementInfo :=
  { id := 2, title := "Second", description := "second one", points := 5, earned := true,
    earned_hardcore := false, rarity_percent := none, earned_at := none, progress := none }

/-- A tracker holding `ach₁` and `ach₂` with one earned. -/
def tracker₀ : AchievementTracker :=
  { game_id := some 7, game_title := "Game", console := "GBA",
    achievements := [ach₁, ach₂], progress := { total := 2, earned := 1 } }

/-! ## Theorems for C1 and C2 -/

/-- C1: the claim says `read_message` yields all well-formed messages of a
kept-open connection in order.  On a connection carrying two well-formed
messages the reader returns only the first, so the claim is false. -/
theorem C1_counterexample :
    (read_message decode₀ [.ok "a", .ok "b"]).toList ≠
      conn_well_formed decode₀ [.ok "a", .ok "b"] := by
  decide

/-- C1 (amended): per accepted connection the reader returns at most one
message: exactly the first well-formed line preceding any read error; all
later messages on the same connection are dropped, and `poll_messages`
contributes at most one message per connection, in accept order. -/
theorem C1_read_message_first_only {M : Type} (decode : String → Option M) :
    (∀ lines : List LineEvent,
      read_message decode lines = (conn_well_formed decode lines).head?)
    ∧ (∀ conns : List (List LineEvent),
      poll_messages decode conns = conns.filterMap (read_message decode)) := by
  constructor
  · intro lines
    induction lines with
    | nil => rfl
    | cons l rest ih =>
      cases l with
      | readErr => rfl
      | ok s =>
        simp only [read_message, conn_well_formed]
        cases decode s with
        | some m => rfl
        | none => simpa using ih
  · intro conns
    rfl

/-- C2: the debounce check of `try_trigger` emits (moving `last_hotkey_time`
to `now`) exactly when `now - last > 300` ms and otherwise drops the event
leaving the state unchanged; consequently any two toggles emitted by the
daemon are more than 300 ms apart, regardless of which device produced them. -/
theorem C2_global_debounce :
    (∀ last now : Nat,
      try_trigger last now =
        (decide (now - last > HOTKEY_DEBOUNCE_MS),
         if now - last > HOTKEY_DEBOUNCE_MS then now else last))
    ∧ (∀ (last0 : Nat) (events : List Nat),
      (run_hotkeys last0 events).Pairwise (fun t₁ t₂ => t₁ + HOTKEY_DEBOUNCE_MS < t₂)) := by
  have hmem : ∀ (events : List Nat) (last0 : Nat) (t : Nat),
      t ∈ run_hotkeys last0 events → last0 + HOTKEY_DEBOUNCE_MS < t := by
    intro events
    induction events with
    | nil => intro last0 t h; simp [run_hotkeys] at h
    | cons e es ih =>
      intro last0 t h
      simp only [run_hotkeys, try_trigger] at h
      by_cases hgt : e - last0 > HOTKEY_DEBOUNCE_MS
      · simp [hgt] at h
        rcases h with h | h
        · omega
        · have := ih e t h
          omega
      · simp [hgt] at h
        exact ih last0 t h
  constructor
  · intro last now
    by_cases h : now - last > HOTKEY_DEBOUNCE_MS <;> simp [try_trigger, h]
  · intro last0 events
    induction events generalizing last0 with
    | nil => exact List.Pairwise.nil
    | cons e es ih =>
      simp only [run_hotkeys, try_trigger]
      by_cases hgt : e - last0 > HOTKEY_DEBOUNCE_MS
      · simp only [hgt, if_true]
        refine List.Pairwise.cons ?_ (ih e)
        intro t ht
        exact hmem es e t ht
      · simp only [hgt, if_false]
        exact ih last0

/-! ## Theorems for C3 and C4 (overlay state machine) -/

/-- C3: the selection/scroll invariant `scroll_offset ≤ selected_index` is
violated at a render point.  From the freshly shown overlay: Down, Select
(enter Settings), Select (enter Menu Customization), Down seven times
(selection 7 of 8, scroll becomes 2), Back (to Settings), Select (re-enter
Menu Customization).  The re-entry resets the selection to 0 but keeps the
stale scroll offset 2, and the next render happens in that state: the code
violates the invariant the spec requires before rendering. -/
theorem C3_scroll_invariant_violated_at_render :
    (run_inputs init_overlay_state
        [.down, .select, .select, .down, .down, .down, .down, .down, .down, .down,
         .back, .select]).current_screen = OverlayScreen.menuCustomization
    ∧ (run_inputs init_overlay_state
        [.down, .select, .select, .down, .down, .down, .down, .down, .down, .down,
         .back, .select]).menu_customization_selected = 0
    ∧ (run_inputs init_overlay_state
        [.down, .select, .select, .down, .down, .down, .down, .down, .down, .down,
         .back, .select]).menu_customization_scroll_offset = 2
    ∧ ¬((run_inputs init_overlay_state
        [.down, .select, .select, .down, .down, .down, .down, .down, .down, .down,
         .back, .select]).menu_customization_scroll_offset ≤
        (run_inputs init_overlay_state
        [.down, .select, .select, .down, .down, .down, .down, .down, .down, .down,
         .back, .select]).menu_customization_selected) := by
  decide

/-- C4: on the QuitConfirm screen, Select with Quit selected does write the
quit-signal file with the single line `quit`, SIGTERM the hard-coded emulator
names and hide the overlay; but Select with Cancel selected (reached here
from the freshly shown overlay by Down seven times then Select on the Quit
entry, which sits at visible index 7 of the default menu) returns to Main
with `selected_option = 5`, and index 5 of the default visible menu is the
Quick Save entry, not Quit — contradicting the claim (and the source comment
"keep quit option selected"), while correctly creating no file. -/
theorem C4_quit_flow_cancel_reselects_quick_save :
    init_overlay_state.menu_items.get? 7 = some MenuItemId.quit
    ∧ init_overlay_state.menu_items.get? 5 = some MenuItemId.quickSave
    ∧ MenuItemId.quickSave ≠ MenuItemId.quit
    ∧ (run_inputs init_overlay_state
        [.down, .down, .down, .down, .down, .down, .down, .select, .select]).current_screen
        = OverlayScreen.main
    ∧ (run_inputs init_overlay_state
        [.down, .down, .down, .down, .down, .down, .down, .select, .select]).selected_option = 5
    ∧ (run_inputs init_overlay_state
        [.down, .down, .down, .down, .down, .down, .down, .select, .select]).effects = []
    ∧ (run_inputs init_overlay_state
        [.down, .down, .down, .down, .down, .down, .down, .select, .right, .select]).visible
        = false
    ∧ (run_inputs init_overlay_state
        [.down, .down, .down, .down, .down, .down, .down, .select, .right, .select]).effects
        = Effect.writeFile "/tmp/kazeta-quit-game" "quit\n"
            :: EMULATOR_PROCS.map Effect.sigterm := by
  decide

/-! ## Theorems for C7 (toast manager) -/

/-- C7: the toast queue is FIFO with the newest toast at the tail,
`get_visible_toasts` returns the first `max_visible` (3 for the standard
manager) toasts in queue order, and after the frame update at wall-clock time
`now` a toast whose lifetime has elapsed (`created + duration ≤ now`) is
never returned (the render loop runs `update` before every render, state.rs
lines 294-298 and main.rs lines 136-151). -/
theorem C7_toast_queue_behaviour (m : ToastManager) (now : Nat) :
    (∀ (message : String) (icon : Option String) (style : ToastStyle) (d : Nat),
      (add_toast m now message icon style d).queue =
        m.queue ++ [{ message := message, icon := icon, style := style,
                      created_at := now, duration := d }])
    ∧ ToastManager.new.max_visible = 3
    ∧ (get_visible_toasts m).length = min m.max_visible m.queue.length
    ∧ (∀ i : Nat, i < m.max_visible →
        (get_visible_toasts m).get? i = m.queue.get? i)
    ∧ (∀ t : Toast, t.created_at + t.duration ≤ now →
        t ∉ get_visible_toasts (m.update now)) := by
  refine ⟨fun _ _ _ _ => rfl, rfl, ?_, ?_, ?_⟩
  · simp [get_visible_toasts]
  · intro i hi
    simpa [get_visible_toasts] using List.getElem?_take_of_lt hi
  · intro t hexp hmem
    have hmem2 : t ∈ (m.update now).queue :=
      List.mem_of_mem_take hmem
    have hp : now - t.created_at < t.duration := by
      have := List.mem_filter.mp hmem2
      simpa using this.2
    omega

/-- Witness for C7 at the concrete manager `toast_mgr₀` and time 100 ms:
visible order matches the queue, and the expired toast is gone. -/
theorem C7_toast_queue_behaviour_witness :
    (get_visible_toasts toast_mgr₀).get? 0 = toast_mgr₀.queue.get? 0
    ∧ toast₀ ∉ get_visible_toasts (toast_mgr₀.update 100) := by
  refine ⟨(C7_toast_queue_behaviour toast_mgr₀ 100).2.2.2.1 0 (by decide), ?_⟩
  exact (C7_toast_queue_behaviour toast_mgr₀ 100).2.2.2.2 toast₀ (by decide)

/-! ## Theorems for C8 (BIOS launch sequencing) -/

/-- C8: the claim says a failed launch-command write prevents the restart
path; in the code `trigger_game_launch` logs the failure and still falls
through to `trigger_session_restart`, so on the failing input the
restart-sentinel is created and the fade-out begins. -/
theorem C8_counterexample_restart_still_triggered :
    BiosEffect.logError "Failed to write launch command" ∈ (trigger_game_launch false).1
    ∧ BiosEffect.createSentinel "/var/kazeta/state/.RESTART_SESSION_SENTINEL"
        ∈ (trigger_game_launch false).1
    ∧ (trigger_game_launch false).2 = BiosScreen.fadingOut := by
  decide

/-- C8 (amended): whether or not the launch-command write succeeds, the BIOS
logs the error exactly on failure and always proceeds to the session restart:
the restart sentinel is created and the fade-out screen entered. -/
theorem C8_launch_write_failure_logged_restart_proceeds (write_launch_ok : Bool) :
    ((BiosEffect.logError "Failed to write launch command" ∈ (trigger_game_launch write_launch_ok).1)
      ↔ write_launch_ok = false)
    ∧ ((BiosEffect.writeLaunchCmd ∈ (trigger_game_launch write_launch_ok).1)
      ↔ write_launch_ok = true)
    ∧ BiosEffect.createSentinel "/var/kazeta/state/.RESTART_SESSION_SENTINEL"
        ∈ (trigger_game_launch write_launch_ok).1
    ∧ (trigger_game_launch write_launch_ok).2 = BiosScreen.fadingOut := by
  cases write_launch_ok <;> decide

/-! ## Theorems for C5 (playtime conservation) -/

/-- C5: ending at monotone time `t2` a session started at `t1` (no
intervening stop) records for that cart a play count larger by exactly one, a
set `last_played`, and a total increased by `(t2 - t1) / 1000` whole seconds,
which is at least the elapsed time minus one second (all times in
milliseconds, so the inequality is scaled by 1000); other carts are
untouched, the pending session is consumed, and starting a new session while
one is pending first ends and records the pending one. -/
theorem C5_playtime_conservation (tr : PlaytimeTracker) (c : String) (t1 t2 now_ts : Nat)
    (hsession : tr.current_session = some { cart_id := c, start_time := t1 })
    (_hmono : t1 ≤ t2) :
    (∃ e : PlaytimeEntry,
      (end_session tr t2 now_ts).database c = some e
      ∧ e.cart_id = ((tr.database c).getD (empty_playtime_entry c)).cart_id
      ∧ e.play_count = ((tr.database c).getD (empty_playtime_entry c)).play_count + 1
      ∧ e.last_played = some now_ts
      ∧ e.total_seconds
          = ((tr.database c).getD (empty_playtime_entry c)).total_seconds + (t2 - t1) / 1000
      ∧ 1000 * e.total_seconds + 1000
          ≥ 1000 * ((tr.database c).getD (empty_playtime_entry c)).total_seconds + (t2 - t1))
    ∧ (end_session tr t2 now_ts).current_session = none
    ∧ (∀ k, k ≠ c → (end_session tr t2 now_ts).database k = tr.database k)
    ∧ (∀ c2, (start_session tr t2 now_ts c2).database = (end_session tr t2 now_ts).database
        ∧ (start_session tr t2 now_ts c2).current_session
            = some { cart_id := c2, start_time := t2 }) := by
  have hend : end_session tr t2 now_ts =
      { current_session := none,
        database := add_playtime tr.database c ((t2 - t1) / 1000) now_ts } := by
    simp [end_session, hsession]
  refine ⟨?_, ?_, ?_, ?_⟩
  · refine ⟨{ (tr.database c).getD (empty_playtime_entry c) with
        total_seconds :=
          ((tr.database c).getD (empty_playtime_entry c)).total_seconds + (t2 - t1) / 1000,
        last_played := some now_ts,
        play_count := ((tr.database c).getD (empty_playtime_entry c)).play_count + 1 },
      ?_, rfl, rfl, rfl, rfl, ?_⟩
    · rw [hend]
      simp [add_playtime]
    · dsimp only
      have h1000 : 1000 * ((t2 - t1) / 1000) + 1000 ≥ t2 - t1 := by omega
      omega
  · rw [hend]
  · intro k hk
    rw [hend]
    simp [add_playtime, hk]
  · intro c2
    exact ⟨rfl, rfl⟩

/-- Witness for C5: on the tracker with an empty database and a session on
cart `g` started at 0 ms, stopping at 2500 ms with Unix time 42 records total
2 seconds, play count 1 and last-played 42; a restart while pending carries
the new session. -/
theorem C5_playtime_conservation_witness :
    (end_session playtime_tr₀ 2500 42).database "g" =
      some { cart_id := "g", total_seconds := 2, last_played := some 42, play_count := 1 }
    ∧ (end_session playtime_tr₀ 2500 42).current_session = none
    ∧ (start_session playtime_tr₀ 2500 42 "g2").current_session =
        some { cart_id := "g2", start_time := 2500 } := by
  have h := C5_playtime_conservation playtime_tr₀ "g" 0 2500 42 rfl (by omega)
  obtain ⟨⟨e, he, hcart, hpc, hlp, hts, _⟩, hsess, _, hstart⟩ := h
  refine ⟨?_, hsess, (hstart "g2").2⟩
  rw [he]
  cases e
  simp_all [playtime_tr₀, empty_playtime_entry]

/-! ## Theorems for C10 (achievement unlock) -/

theorem unlock_list_no_match (aid : Nat) (l : List AchievementInfo)
    (h : ∀ a ∈ l, a.id ≠ aid) : unlock_list aid l = (l, false) := by
  induction l with
  | nil => rfl
  | cons a rest ih =>
    have hne : a.id ≠ aid := h a (by simp)
    simp only [unlock_list, if_neg hne]
    rw [ih (fun b hb => h b (by simp [hb]))]

theorem unlock_list_first_earned (aid : Nat) (pre : List AchievementInfo)
    (a : AchievementInfo) (post : List AchievementInfo)
    (hpre : ∀ b ∈ pre, b.id ≠ aid) (hid : a.id = aid) (hearned : a.earned = true) :
    unlock_list aid (pre ++ a :: post) = (pre ++ a :: post, false) := by
  induction pre with
  | nil => simp [unlock_list, hid, hearned]
  | cons b rest ih =>
    have hb : b.id ≠ aid := hpre b (by simp)
    have ih2 := ih (fun x hx => hpre x (by simp [hx]))
    simp only [List.cons_append, unlock_list, if_neg hb, List.append_eq, ih2]

theorem unlock_list_first_unearned (aid : Nat) (pre : List AchievementInfo)
    (a : AchievementInfo) (post : List AchievementInfo)
    (hpre : ∀ b ∈ pre, b.id ≠ aid) (hid : a.id = aid) (hearned : a.earned = false) :
    unlock_list aid (pre ++ a :: post) =
      (pre ++ { a with earned := true } :: post, true) := by
  induction pre with
  | nil => simp [unlock_list, hid, hearned]
  | cons b rest ih =>
    have hb : b.id ≠ aid := hpre b (by simp)
    have ih2 := ih (fun x hx => hpre x (by simp [hx]))
    simp only [List.cons_append, unlock_list, if_neg hb, List.append_eq, ih2]

theorem unlock_list_idem (aid : Nat) (l : List AchievementInfo) :
    unlock_list aid (unlock_list aid l).1 = ((unlock_list aid l).1, false) := by
  induction l with
  | nil => rfl
  | cons a rest ih =>
    by_cases hid : a.id = aid
    · by_cases he : a.earned
      · simp [unlock_list, hid, he]
      · simp [unlock_list, hid, he]
    · simp only [unlock_list, if_neg hid]
      rw [ih]

/-- C10: `unlock_achievement` is idempotent and total: applying it twice
equals applying it once on every tracker state; an absent id, or an id whose
first achievement is already earned, leaves the tracker unchanged; otherwise
exactly that achievement gains the earned flag and the earned counter (a
`u32`) increases by exactly one whenever it does not wrap. -/
theorem C10_unlock_idempotent_total (t : AchievementTracker) (aid : Nat) :
    unlock_achievement (unlock_achievement t aid) aid = unlock_achievement t aid
    ∧ ((∀ a ∈ t.achievements, a.id ≠ aid) → unlock_achievement t aid = t)
    ∧ (∀ (pre : List AchievementInfo) (a : AchievementInfo) (post : List AchievementInfo),
        t.achievements = pre ++ a :: post → (∀ b ∈ pre, b.id ≠ aid) → a.id = aid →
        (a.earned = true → unlock_achievement t aid = t)
        ∧ (a.earned = false →
            (unlock_achievement t aid).achievements = pre ++ { a with earned := true } :: post
            ∧ (unlock_achievement t aid).progress.earned = (t.progress.earned + 1) % U32_MOD
            ∧ (t.progress.earned + 1 < U32_MOD →
                (unlock_achievement t aid).progress.earned = t.progress.earned + 1)
            ∧ (unlock_achievement t aid).progress.total = t.progress.total
            ∧ (unlock_achievement t aid).game_id = t.game_id
            ∧ (unlock_achievement t aid).game_title = t.game_title
            ∧ (unlock_achievement t aid).console = t.console)) := by
  refine ⟨?_, ?_, ?_⟩
  · simp [unlock_achievement, unlock_list_idem]
  · intro h
    simp [unlock_achievement, unlock_list_no_match aid t.achievements h]
  · intro pre a post hsplit hpre hid
    constructor
    · intro hearned
      have hl : unlock_list aid t.achievements = (t.achievements, false) := by
        rw [hsplit]
        exact unlock_list_first_earned aid pre a post hpre hid hearned
      simp [unlock_achievement, hl]
    · intro hearned
      have hl : unlock_list aid t.achievements = (pre ++ { a with earned := true } :: post, true) := by
        rw [hsplit]
        exact unlock_list_first_unearned aid pre a post hpre hid hearned
      refine ⟨?_, ?_, ?_, ?_, ?_, ?_, ?_⟩ <;> simp [unlock_achievement, hl]
      intro hlt
      exact Nat.mod_eq_of_lt hlt

/-- Witness for C10 on the concrete tracker `tracker₀`: double unlock of id 1
equals a single unlock, unlocking the absent id 99 or the already earned id 2
changes nothing, and unlocking the unearned id 1 sets exactly its flag and
bumps the earned counter from 1 to 2. -/
theorem C10_unlock_idempotent_total_witness :
    unlock_achievement (unlock_achievement tracker₀ 1) 1 = unlock_achievement tracker₀ 1
    ∧ unlock_achievement tracker₀ 99 = tracker₀
    ∧ unlock_achievement tracker₀ 2 = tracker₀
    ∧ (unlock_achievement tracker₀ 1).achievements = [{ ach₁ with earned := true }, ach₂]
    ∧ (unlock_achievement tracker₀ 1).progress.earned = 2 := by
  have h1 := C10_unlock_idempotent_total tracker₀ 1
  have h99 := C10_unlock_idempotent_total tracker₀ 99
  have h2 := C10_unlock_idempotent_total tracker₀ 2
  have hu := (h1.2.2 [] ach₁ [ach₂] rfl (by simp) rfl).2 rfl
  refine ⟨h1.1, h99.2.1 ?_, (h2.2.2 [ach₁] ach₂ [] rfl ?_ rfl).1 rfl, ?_, ?_⟩
  · intro a ha
    simp [tracker₀, ach₁, ach₂] at ha
    rcases ha with h | h <;> simp [h, ach₁, ach₂]
  · intro b hb
    simp at hb
    simp [hb, ach₁]
  · simpa using hu.1
  · rw [hu.2.1]
    decide

/-! ## Theorems for C9 (achievement filter correctness) -/

theorem filter_loop_mem (f : AchievementFilter) (q : String) (l : List AchievementInfo) :
    ∀ n j : Nat, j ∈ filter_loop f q n l ↔
      ∃ k, n + k = j ∧ ∃ a, l.get? k = some a
        ∧ (matches_filter f a && matches_search q a) = true := by
  induction l with
  | nil =>
    intro n j
    simp [filter_loop]
  | cons a rest ih =>
    intro n j
    by_cases hP : (matches_filter f a && matches_search q a) = true
    · simp only [filter_loop, if_pos hP]
      constructor
      · intro hj
        rcases List.mem_cons.mp hj with h | h
        · exact ⟨0, by omega, a, rfl, hP⟩
        · rcases (ih (n + 1) j).mp h with ⟨k, hk, a2, hget, hmatch⟩
          exact ⟨k + 1, by omega, a2, by simpa using hget, hmatch⟩
      · rintro ⟨k, hk, a2, hget, hmatch⟩
        cases k with
        | zero =>
          apply List.mem_cons.mpr
          left
          omega
        | succ k2 =>
          apply List.mem_cons.mpr
          right
          exact (ih (n + 1) j).mpr ⟨k2, by omega, a2, by simpa using hget, hmatch⟩
    · simp only [filter_loop, if_neg hP]
      rw [ih (n + 1) j]
      constructor
      · rintro ⟨k, hk, a2, hget, hmatch⟩
        exact ⟨k + 1, by omega, a2, by simpa using hget, hmatch⟩
      · rintro ⟨k, hk, a2, hget, hmatch⟩
        cases k with
        | zero =>
          simp only [List.get?] at hget
          cases hget
          exact absurd hmatch hP
        | succ k2 =>
          exact ⟨k2, by omega, a2, by simpa using hget, hmatch⟩

theorem filter_loop_lower (f : AchievementFilter) (q : String) (l : List AchievementInfo) :
    ∀ n j : Nat, j ∈ filter_loop f q n l → n ≤ j := by
  induction l with
  | nil =>
    intro n j h
    simp [filter_loop] at h
  | cons a rest ih =>
    intro n j h
    by_cases hP : (matches_filter f a && matches_search q a) = true
    · simp only [filter_loop, if_pos hP] at h
      rcases List.mem_cons.mp h with h | h
      · omega
      · have := ih (n + 1) j h
        omega
    · simp only [filter_loop, if_neg hP] at h
      have := ih (n + 1) j h
      omega

theorem filter_loop_sorted (f : AchievementFilter) (q : String) (l : List AchievementInfo) :
    ∀ n : Nat, (filter_loop f q n l).Sorted (· < ·) := by
  induction l with
  | nil =>
    intro n
    simp [filter_loop, List.Sorted]
  | cons a rest ih =>
    intro n
    by_cases hP : (matches_filter f a && matches_search q a) = true
    · simp only [filter_loop, if_pos hP]
      refine List.Pairwise.cons ?_ (ih (n + 1))
      intro j hj
      have := filter_loop_lower f q rest (n + 1) j hj
      omega
    · simp only [filter_loop, if_neg hP]
      exact ih (n + 1)

theorem apply_filter_spec (st : AchievementFilterState) (l : List AchievementInfo) :
    (apply_filter st l).filtered_indices.Sorted (· < ·)
    ∧ ∀ j : Nat, j ∈ (apply_filter st l).filtered_indices ↔
        ∃ a, l.get? j = some a
          ∧ matches_filter st.filter a = true ∧ matches_search st.search_query a = true := by
  constructor
  · exact filter_loop_sorted st.filter st.search_query l 0
  · intro j
    rw [show (apply_filter st l).filtered_indices
          = filter_loop st.filter st.search_query 0 l from rfl,
        filter_loop_mem st.filter st.search_query l 0 j]
    constructor
    · rintro ⟨k, hk, a, hget, hmatch⟩
      have hkj : k = j := by omega
      subst hkj
      exact ⟨a, hget, by simpa using hmatch⟩
    · rintro ⟨a, hget, hf, hs⟩
      exact ⟨j, by omega, a, hget, by simp [hf, hs]⟩

/-- C9: after any nonempty sequence of filter-set, search-update and list-set
operations (each of which, per the spec and every consumer in the repository,
recomputes via `apply_filter`), `filtered_indices` is exactly the strictly
increasing list of indices whose achievement matches the current filter and
the current case-insensitive search over title or description. -/
theorem C9_filter_correctness (st0 : AchievementFilterState) (l0 : List AchievementInfo)
    (ops : List FilterOp) (hne : ops ≠ []) :
    (filter_run (st0, l0) ops).1.filtered_indices.Sorted (· < ·)
    ∧ ∀ j : Nat, j ∈ (filter_run (st0, l0) ops).1.filtered_indices ↔
        ∃ a, (filter_run (st0, l0) ops).2.get? j = some a
          ∧ matches_filter (filter_run (st0, l0) ops).1.filter a = true
          ∧ matches_search (filter_run (st0, l0) ops).1.search_query a = true := by
  rcases List.eq_nil_or_concat ops with rfl | ⟨ops2, op, rfl⟩
  · exact absurd rfl hne
  · have hrun : filter_run (st0, l0) (ops2.concat op)
        = filter_step (filter_run (st0, l0) ops2) op := by
      simp [filter_run, List.concat_eq_append]
    rw [hrun]
    rcases op with f | q | l
    · exact apply_filter_spec (set_filter (filter_run (st0, l0) ops2).1 f)
        (filter_run (st0, l0) ops2).2
    · exact apply_filter_spec (update_search (filter_run (st0, l0) ops2).1 q)
        (filter_run (st0, l0) ops2).2
    · exact apply_filter_spec (filter_run (st0, l0) ops2).1 l

/-- Witness for C9: from the fresh filter state and empty list, set the list
to the two example achievements and then the filter to Earned; the derived
indices are sorted and contain exactly the earned achievement (index 1). -/
theorem C9_filter_correctness_witness :
    (filter_run (AchievementFilterState.new, [])
        [.setList [ach₁, ach₂], .setFilter .earned]).1.filtered_indices.Sorted (· < ·)
    ∧ 1 ∈ (filter_run (AchievementFilterState.new, [])
        [.setList [ach₁, ach₂], .setFilter .earned]).1.filtered_indices
    ∧ 0 ∉ (filter_run (AchievementFilterState.new, [])
        [.setList [ach₁, ach₂], .setFilter .earned]).1.filtered_indices := by
  have h := C9_filter_correctness AchievementFilterState.new []
    [.setList [ach₁, ach₂], .setFilter .earned] (by simp)
  refine ⟨h.1, ?_, ?_⟩
  · exact (h.2 1).mpr ⟨ach₂, rfl, rfl, by decide⟩
  · intro h0
    rcases (h.2 0).mp h0 with ⟨a, hget, hf, _⟩
    have hlist : (filter_run (AchievementFilterState.new, ([] : List AchievementInfo))
        [.setList [ach₁, ach₂], .setFilter .earned]).2 = [ach₁, ach₂] := rfl
    rw [hlist] at hget
    have ha : a = ach₁ := by
      simpa using hget.symm
    have hfil : (filter_run (AchievementFilterState.new, ([] : List AchievementInfo))
        [.setList [ach₁, ach₂], .setFilter .earned]).1.filter = AchievementFilter.earned := rfl
    rw [hfil, ha] at hf
    exact absurd hf (by decide)

/-! ## Theorems for C6 (controller assignment invariant) -/

theorem find_ctrl_index_spec (cid : Nat) (l : List ConnectedController) :
    ∀ i : Nat, find_ctrl_index cid l = some i →
      ∃ c, l.get? i = some c ∧ c.id = cid := by
  induction l with
  | nil =>
    intro i h
    simp [find_ctrl_index] at h
  | cons c rest ih =>
    intro i h
    by_cases hc : c.id = cid
    · simp only [find_ctrl_index, if_pos hc] at h
      cases h
      exact ⟨c, rfl, hc⟩
    · simp only [find_ctrl_index, if_neg hc] at h
      rcases Option.map_eq_some'.mp h with ⟨k, hk, rfl⟩
      rcases ih k hk with ⟨c2, hget, hid⟩
      exact ⟨c2, by simpa using hget, hid⟩

theorem clear_first_not_found (cid : Nat) (l : List ConnectedController)
    (h : ∀ c ∈ l, c.id ≠ cid) : clear_first_assigned cid l = l := by
  induction l with
  | nil => rfl
  | cons c rest ih =>
    have hc : c.id ≠ cid := h c (by simp)
    simp only [clear_first_assigned, if_neg hc]
    rw [ih (fun x hx => h x (by simp [hx]))]

theorem clear_first_get? (cid : Nat) (l : List ConnectedController)
    (hnd : (l.map (fun c => c.id)).Nodup) :
    ∀ j : Nat, (clear_first_assigned cid l).get? j =
      (l.get? j).map
        (fun c => if c.id = cid then { c with assigned_player := none } else c) := by
  induction l with
  | nil =>
    intro j
    simp [clear_first_assigned]
  | cons c rest ih =>
    intro j
    simp only [List.map_cons, List.nodup_cons] at hnd
    by_cases hc : c.id = cid
    · simp only [clear_first_assigned, if_pos hc]
      cases j with
      | zero => simp [hc]
      | succ k =>
        simp only [List.get?_cons_succ]
        have hrest : ∀ x ∈ rest, x.id ≠ cid := by
          intro x hx hxid
          apply hnd.1
          rw [hc, ← hxid]
          exact List.mem_map_of_mem _ hx
        cases hx : rest.get? k with
        | none => simp
        | some x =>
          have hxmem : x ∈ rest := List.mem_iff_get?.mpr ⟨k, hx⟩
          simp [hrest x hxmem]
    · simp only [clear_first_assigned, if_neg hc]
      cases j with
      | zero => simp [hc]
      | succ k =>
        simp only [List.get?_cons_succ]
        exact ih hnd.2 k

theorem clear_first_map_id (cid : Nat) (l : List ConnectedController) :
    (clear_first_assigned cid l).map (fun c => c.id) = l.map (fun c => c.id) := by
  induction l with
  | nil => rfl
  | cons c rest ih =>
    by_cases hc : c.id = cid
    · simp [clear_first_assigned, if_pos hc]
    · simp [clear_first_assigned, if_neg hc, ih]

theorem clear_first_length (cid : Nat) (l : List ConnectedController) :
    (clear_first_assigned cid l).length = l.length := by
  induction l with
  | nil => rfl
  | cons c rest ih =>
    by_cases hc : c.id = cid
    · simp [clear_first_assigned, if_pos hc]
    · simp [clear_first_assigned, if_neg hc, ih]

theorem unassign_list_fst (cid : Nat) (l : List ConnectedController) :
    (unassign_list cid l).1 = clear_first_assigned cid l := by
  induction l with
  | nil => rfl
  | cons c rest ih =>
    by_cases hc : c.id = cid
    · simp [unassign_list, clear_first_assigned, if_pos hc]
    · simp [unassign_list, clear_first_assigned, if_neg hc, ih]

theorem unassign_list_not_found (cid : Nat) (l : List ConnectedController)
    (h : ∀ c ∈ l, c.id ≠ cid) : unassign_list cid l = (l, none) := by
  induction l with
  | nil => rfl
  | cons c rest ih =>
    have hc : c.id ≠ cid := h c (by simp)
    simp only [unassign_list, if_neg hc]
    rw [ih (fun x hx => h x (by simp [hx]))]

theorem unassign_list_snd_found (cid : Nat) (l : List ConnectedController)
    (hnd : (l.map (fun c => c.id)).Nodup) :
    ∀ (i : Nat) (c0 : ConnectedController), l.get? i = some c0 → c0.id = cid →
      (unassign_list cid l).2 = c0.assigned_player := by
  induction l with
  | nil =>
    intro i c0 h
    simp at h
  | cons c rest ih =>
    intro i c0 hget hid
    simp only [List.map_cons, List.nodup_cons] at hnd
    by_cases hc : c.id = cid
    · simp only [unassign_list, if_pos hc]
      cases i with
      | zero =>
        cases hget
        rfl
      | succ k =>
        exfalso
        have hc0mem : c0 ∈ rest := List.mem_iff_get?.mpr ⟨k, by simpa using hget⟩
        apply hnd.1
        rw [hc, ← hid]
        exact List.mem_map_of_mem _ hc0mem
    · simp only [unassign_list, if_neg hc]
      cases i with
      | zero =>
        cases hget
        exact absurd hid hc
      | succ k =>
        exact ih hnd.2 k c0 (by simpa using hget) hid

theorem auto_assign_list_get? (l : List ConnectedController) :
    ∀ i j : Nat, (auto_assign_list i l).get? j =
      (l.get? j).map
        (fun c => { c with assigned_player :=
          if i + j < MAX_PLAYERS then some (i + j + 1) else none }) := by
  induction l with
  | nil =>
    intro i j
    simp [auto_assign_list]
  | cons c rest ih =>
    intro i j
    cases j with
    | zero => simp [auto_assign_list]
    | succ k =>
      simp only [auto_assign_list, List.get?_cons_succ]
      rw [ih (i + 1) k]
      have harith : i + 1 + k = i + (k + 1) := by omega
      rw [harith]

theorem auto_assign_list_length (l : List ConnectedController) :
    ∀ i : Nat, (auto_assign_list i l).length = l.length := by
  induction l with
  | nil => intro i; rfl
  | cons c rest ih =>
    intro i
    simp [auto_assign_list, ih (i + 1)]

theorem assign_ok_char (s : CtrlState) (hInv : CtrlInv s) (cid p : Nat) (s2 : CtrlState)
    (hok : assign_controller_to_player s cid p = .ok s2) :
    1 ≤ p ∧ p ≤ 4
    ∧ ∃ idx c0, s.controllers.get? idx = some c0 ∧ c0.id = cid
      ∧ s2.controllers.length = s.controllers.length
      ∧ (∀ j c, s.controllers.get? j = some c →
          s2.controllers.get? j = some (assign_target idx p j c))
      ∧ s2.player_assignments = assign_slots s.player_assignments cid p := by
  obtain ⟨hnd, hrange, hiff⟩ := hInv
  have hM : MAX_PLAYERS = 4 := rfl
  by_cases hp : p = 0 ∨ p > MAX_PLAYERS
  · rw [assign_controller_to_player, if_pos hp] at hok
    simp at hok
  · have hp1 : 1 ≤ p := by omega
    have hp4 : p ≤ 4 := by omega
    refine ⟨hp1, hp4, ?_⟩
    cases hfind : find_ctrl_index cid s.controllers with
    | none =>
      rw [assign_controller_to_player, if_neg hp, hfind] at hok
      simp at hok
    | some idx =>
      rw [assign_controller_to_player, if_neg hp, hfind] at hok
      obtain ⟨c0, hc0get, hc0id⟩ := find_ctrl_index_spec cid s.controllers idx hfind
      simp only [hc0get, Option.getD_some] at hok
      have hlt : p - 1 < 4 := by omega
      have hps : p - 1 + 1 = p := by omega
      have hc0mem : c0 ∈ s.controllers := List.mem_iff_get?.mpr ⟨idx, hc0get⟩
      have hidx_lt : idx < s.controllers.length := (List.get?_eq_some.mp hc0get).1
      have hinj : ∀ j c, s.controllers.get? j = some c → c.id = cid → j = idx := by
        intro j c hj hcid
        have h1 : (s.controllers.map (fun x => x.id)).get? j = some cid := by
          rw [List.get?_map, hj]
          simp [hcid]
        have h2 : (s.controllers.map (fun x => x.id)).get? idx = some cid := by
          rw [List.get?_map, hc0get]
          simp [hc0id]
        have hjlt : j < (s.controllers.map (fun x => x.id)).length := by
          have := (List.get?_eq_some.mp h1).1
          simpa using this
        exact List.get?_inj hjlt hnd (h2 ▸ h1)
      have hgs : get_slot s.player_assignments (p - 1)
          = s.player_assignments ⟨p - 1, hlt⟩ := by
        unfold get_slot
        rw [dif_pos hlt]
      have hfinal : ∀ ctrls1 : List ConnectedController,
          (∀ j c, s.controllers.get? j = some c →
            ctrls1.get? j = some (if j ≠ idx ∧ c.assigned_player = some p
              then { c with assigned_player := none } else c)) →
          ctrls1.length = s.controllers.length →
          (∀ j c, s.controllers.get? j = some c →
            (ctrls1.set idx
              { id := ((ctrls1.get? idx).getD default).id, assigned_player := some p }).get? j
              = some (assign_target idx p j c))
          ∧ (ctrls1.set idx
              { id := ((ctrls1.get? idx).getD default).id, assigned_player := some p }).length
              = s.controllers.length := by
        intro ctrls1 hchar hlen
        have hc0get1 : ctrls1.get? idx = some c0 := by
          have := hchar idx c0 hc0get
          simpa using this
        constructor
        · intro j c hj
          by_cases hji : j = idx
          · subst hji
            have hceq : some c = some c0 := by rw [← hj, hc0get]
            injection hceq with hceq
            subst hceq
            rw [List.get?_eq_getElem?,
              List.getElem?_set_self (by rw [hlen]; exact hidx_lt), hc0get1]
            simp [assign_target]
          · rw [List.get?_eq_getElem?, List.getElem?_set_ne (Ne.symm hji),
              ← List.get?_eq_getElem?, hchar j c hj]
            simp only [assign_target, if_neg hji]
            by_cases hcp : c.assigned_player = some p
            · simp [hji, hcp]
            · simp [hji, hcp]
        · rw [List.length_set, hlen]
      cases hold : c0.assigned_player with
      | none =>
        rw [hold] at hok
        have hnoslot : ∀ q : Fin 4, s.player_assignments q ≠ some cid := by
          intro q hq
          have hmp := (hiff c0 hc0mem q).mpr (by rw [hc0id]; exact hq)
          rw [hold] at hmp
          cases hmp
        cases hsl : s.player_assignments ⟨p - 1, hlt⟩ with
        | none =>
          rw [hgs, hsl] at hok
          injection hok with hs2
          subst hs2
          have hchar : ∀ j c, s.controllers.get? j = some c →
              s.controllers.get? j = some (if j ≠ idx ∧ c.assigned_player = some p
                then { c with assigned_player := none } else c) := by
            intro j c hj
            have hcnp : c.assigned_player ≠ some p := by
              intro hcp
              have := (hiff c (List.mem_iff_get?.mpr ⟨j, hj⟩) ⟨p - 1, hlt⟩).mp (by rw [hps]; exact hcp)
              rw [hsl] at this
              cases this
            rw [if_neg (fun h => hcnp h.2)]
            simpa using hj
          obtain ⟨hg2, hg1⟩ := hfinal s.controllers hchar rfl
          refine ⟨idx, c0, hc0get, hc0id, hg1, hg2, ?_⟩
          funext q
          simp only [set_slot, assign_slots]
          by_cases hq : q.val = p - 1
          · simp [hq]
          · simp [hq, if_neg (hnoslot q)]
        | some ocid =>
          have hocne : ocid ≠ cid := by
            intro h
            exact hnoslot ⟨p - 1, hlt⟩ (by rw [hsl, h])
          rw [hgs, hsl] at hok
          injection hok with hs2
          subst hs2
          have hchar : ∀ j c, s.controllers.get? j = some c →
              (clear_first_assigned ocid s.controllers).get? j
                = some (if j ≠ idx ∧ c.assigned_player = some p
                  then { c with assigned_player := none } else c) := by
            intro j c hj
            rw [clear_first_get? ocid s.controllers hnd j, hj]
            have hmem : c ∈ s.controllers := List.mem_iff_get?.mpr ⟨j, hj⟩
            by_cases hji : j = idx
            · subst hji
              have hceq : some c = some c0 := by rw [← hj, hc0get]
              injection hceq with hceq
              have hne : c.id ≠ ocid := by
                rw [hceq, hc0id]
                exact fun h => hocne h.symm
              simp only [Option.map_some']
              rw [if_neg hne, if_neg (fun h => h.1 rfl)]
            · have hiffoc : c.id = ocid ↔ c.assigned_player = some p := by
                constructor
                · intro hco
                  have := (hiff c hmem ⟨p - 1, hlt⟩).mpr (by rw [hsl, hco])
                  rw [hps] at this
                  exact this
                · intro hcp
                  have := (hiff c hmem ⟨p - 1, hlt⟩).mp (by rw [hps]; exact hcp)
                  rw [hsl] at this
                  injection this with this
                  exact this.symm
              simp only [Option.map_some']
              by_cases hco : c.id = ocid
              · rw [if_pos hco, if_pos ⟨hji, hiffoc.mp hco⟩]
              · rw [if_neg hco, if_neg (fun h => hco (hiffoc.mpr h.2))]
          obtain ⟨hg2, hg1⟩ := hfinal (clear_first_assigned ocid s.controllers) hchar
            (clear_first_length ocid s.controllers)
          refine ⟨idx, c0, hc0get, hc0id, hg1, hg2, ?_⟩
          funext q
          simp only [set_slot, assign_slots]
          by_cases hq : q.val = p - 1
          · simp [hq]
          · simp [hq, if_neg (hnoslot q)]
      | some op =>
        rw [hold] at hok
        have hoprange : 1 ≤ op ∧ op ≤ 4 := by
          have := hrange c0 hc0mem
          simp only [player_in_range, hold, Bool.and_eq_true, decide_eq_true_eq] at this
          have hM2 : MAX_PLAYERS = 4 := rfl
          omega
        have hop_lt : op - 1 < 4 := by omega
        have hop1 : op - 1 + 1 = op := by omega
        have hslotop : s.player_assignments ⟨op - 1, hop_lt⟩ = some cid := by
          have := (hiff c0 hc0mem ⟨op - 1, hop_lt⟩).mp (by rw [hop1]; exact hold)
          rw [hc0id] at this
          exact this
        have hcid_iff : ∀ q : Fin 4, s.player_assignments q = some cid ↔ q.val = op - 1 := by
          intro q
          constructor
          · intro hq
            have := (hiff c0 hc0mem q).mpr (by rw [hc0id]; exact hq)
            rw [hold] at this
            injection this with this
            omega
          · intro hq
            have : q = ⟨op - 1, hop_lt⟩ := Fin.ext hq
            rw [this]
            exact hslotop
        have hpa1 : set_slot s.player_assignments (op - 1) none
            = fun q => if s.player_assignments q = some cid then none
                else s.player_assignments q := by
          funext q
          simp only [set_slot]
          by_cases hq : q.val = op - 1
          · simp [hq, (hcid_iff q).mpr hq]
          · have : s.player_assignments q ≠ some cid := fun h => hq ((hcid_iff q).mp h)
            simp [hq, this]
        have hgs2 : get_slot (set_slot s.player_assignments (op - 1) none) (p - 1)
            = if s.player_assignments ⟨p - 1, hlt⟩ = some cid then none
              else s.player_assignments ⟨p - 1, hlt⟩ := by
          unfold get_slot
          rw [dif_pos hlt, hpa1]
        have hslots_goal : set_slot (set_slot s.player_assignments (op - 1) none) (p - 1) (some cid)
            = assign_slots s.player_assignments cid p := by
          funext q
          rw [show set_slot s.player_assignments (op - 1) none = _ from hpa1]
          simp only [set_slot, assign_slots]
        by_cases hsl : s.player_assignments ⟨p - 1, hlt⟩ = some cid
        · rw [hgs2, if_pos hsl] at hok
          injection hok with hs2
          subst hs2
          have hchar : ∀ j c, s.controllers.get? j = some c →
              s.controllers.get? j = some (if j ≠ idx ∧ c.assigned_player = some p
                then { c with assigned_player := none } else c) := by
            intro j c hj
            by_cases hji : j = idx
            · rw [if_neg (fun h => h.1 hji)]
              simpa using hj
            · have hcnp : c.assigned_player ≠ some p := by
                intro hcp
                have hcm := (hiff c (List.mem_iff_get?.mpr ⟨j, hj⟩) ⟨p - 1, hlt⟩).mp
                  (by rw [hps]; exact hcp)
                rw [hsl] at hcm
                injection hcm with hcm
                exact hji (hinj j c hj (by rw [hcm]))
              rw [if_neg (fun h => hcnp h.2)]
              simpa using hj
          obtain ⟨hg2, hg1⟩ := hfinal s.controllers hchar rfl
          exact ⟨idx, c0, hc0get, hc0id, hg1, hg2, hslots_goal⟩
        · rw [hgs2, if_neg hsl] at hok
          cases hsl2 : s.player_assignments ⟨p - 1, hlt⟩ with
          | none =>
            rw [hsl2] at hok
            injection hok with hs2
            subst hs2
            have hchar : ∀ j c, s.controllers.get? j = some c →
                s.controllers.get? j = some (if j ≠ idx ∧ c.assigned_player = some p
                  then { c with assigned_player := none } else c) := by
              intro j c hj
              have hcnp : c.assigned_player ≠ some p := by
                intro hcp
                have := (hiff c (List.mem_iff_get?.mpr ⟨j, hj⟩) ⟨p - 1, hlt⟩).mp
                  (by rw [hps]; exact hcp)
                rw [hsl2] at this
                cases this
              rw [if_neg (fun h => hcnp h.2)]
              simpa using hj
            obtain ⟨hg2, hg1⟩ := hfinal s.controllers hchar rfl
            exact ⟨idx, c0, hc0get, hc0id, hg1, hg2, hslots_goal⟩
          | some ocid =>
            have hocne : ocid ≠ cid := by
              intro h
              exact hsl (by rw [hsl2, h])
            rw [hsl2] at hok
            injection hok with hs2
            subst hs2
            have hchar : ∀ j c, s.controllers.get? j = some c →
                (clear_first_assigned ocid s.controllers).get? j
                  = some (if j ≠ idx ∧ c.assigned_player = some p
                    then { c with assigned_player := none } else c) := by
              intro j c hj
              rw [clear_first_get? ocid s.controllers hnd j, hj]
              have hmem : c ∈ s.controllers := List.mem_iff_get?.mpr ⟨j, hj⟩
              by_cases hji : j = idx
              · subst hji
                have hceq : some c = some c0 := by rw [← hj, hc0get]
                injection hceq with hceq
                have hne : c.id ≠ ocid := by
                  rw [hceq, hc0id]
                  exact fun h => hocne h.symm
                simp only [Option.map_some']
                rw [if_neg hne, if_neg (fun h => h.1 rfl)]
              · have hiffoc : c.id = ocid ↔ c.assigned_player = some p := by
                  constructor
                  · intro hco
                    have := (hiff c hmem ⟨p - 1, hlt⟩).mpr (by rw [hsl2, hco])
                    rw [hps] at this
                    exact this
                  · intro hcp
                    have := (hiff c hmem ⟨p - 1, hlt⟩).mp (by rw [hps]; exact hcp)
                    rw [hsl2] at this
                    injection this with this
                    exact this.symm
                simp only [Option.map_some']
                by_cases hco : c.id = ocid
                · rw [if_pos hco, if_pos ⟨hji, hiffoc.mp hco⟩]
                · rw [if_neg hco, if_neg (fun h => hco (hiffoc.mpr h.2))]
            obtain ⟨hg2, hg1⟩ := hfinal (clear_first_assigned ocid s.controllers) hchar
              (clear_first_length ocid s.controllers)
            exact ⟨idx, c0, hc0get, hc0id, hg1, hg2, hslots_goal⟩

theorem nodup_id_inj (l : List ConnectedController)
    (hnd : (l.map (fun c => c.id)).Nodup) :
    ∀ i j ci cj, l.get? i = some ci → l.get? j = some cj → ci.id = cj.id → i = j := by
  intro i j ci cj hi hj hid
  have h1 : (l.map (fun c => c.id)).get? i = some ci.id := by
    rw [List.get?_map, hi]
    rfl
  have h2 : (l.map (fun c => c.id)).get? j = some ci.id := by
    rw [List.get?_map, hj]
    simp [hid]
  have hilt : i < (l.map (fun c => c.id)).length := (List.get?_eq_some.mp h1).1
  exact List.get?_inj hilt hnd (h2 ▸ h1)

theorem assign_char_inv (s s2 : CtrlState) (hInv : CtrlInv s) (cid p idx : Nat)
    (c0 : ConnectedController)
    (hp1 : 1 ≤ p) (hp4 : p ≤ 4)
    (hc0get : s.controllers.get? idx = some c0) (hc0id : c0.id = cid)
    (hlen : s2.controllers.length = s.controllers.length)
    (hctrl : ∀ j c, s.controllers.get? j = some c →
       s2.controllers.get? j = some (assign_target idx p j c))
    (hpa : s2.player_assignments = assign_slots s.player_assignments cid p) :
    CtrlInv s2 := by
  obtain ⟨hnd, hrange, hiff⟩ := hInv
  have htarget_id : ∀ j c, (assign_target idx p j c).id = c.id := by
    intro j c
    unfold assign_target
    split_ifs <;> rfl
  have hback : ∀ j c2, s2.controllers.get? j = some c2 →
      ∃ c, s.controllers.get? j = some c ∧ c2 = assign_target idx p j c := by
    intro j c2 hj2
    cases hc : s.controllers.get? j with
    | none =>
      have hlenle : s.controllers.length ≤ j := List.get?_eq_none.mp hc
      have h2 : s2.controllers.get? j = none := List.get?_eq_none.mpr (by omega)
      rw [h2] at hj2
      cases hj2
    | some c =>
      have := hctrl j c hc
      rw [this] at hj2
      injection hj2 with h
      exact ⟨c, rfl, h.symm⟩
  have hmapid : s2.controllers.map (fun c => c.id) = s.controllers.map (fun c => c.id) := by
    apply List.ext_get?
    intro n
    rw [List.get?_map, List.get?_map]
    cases hc : s.controllers.get? n with
    | none =>
      have h2 : s2.controllers.get? n = none :=
        List.get?_eq_none.mpr (by have := List.get?_eq_none.mp hc; omega)
      rw [h2]
    | some c =>
      rw [hctrl n c hc]
      simp [htarget_id]
  refine ⟨hmapid ▸ hnd, ?_, ?_⟩
  · intro c2 hc2mem
    obtain ⟨j, hj2⟩ := List.mem_iff_get?.mp hc2mem
    obtain ⟨c, hc, rfl⟩ := hback j c2 hj2
    have hcr := hrange c (List.mem_iff_get?.mpr ⟨j, hc⟩)
    unfold assign_target
    split_ifs with h1 h2
    · have hM : MAX_PLAYERS = 4 := rfl
      simp [player_in_range]
      omega
    · simp [player_in_range]
    · exact hcr
  · intro c2 hc2mem q
    obtain ⟨j, hj2⟩ := List.mem_iff_get?.mp hc2mem
    obtain ⟨c, hc, rfl⟩ := hback j c2 hj2
    have hcmem : c ∈ s.controllers := List.mem_iff_get?.mpr ⟨j, hc⟩
    rw [hpa]
    by_cases hji : j = idx
    · subst hji
      have hcc0 : c = c0 := by
        have := hc.symm.trans hc0get
        injection this
      have hcid_c : c.id = cid := by rw [hcc0, hc0id]
      simp only [assign_target, if_pos rfl]
      show some p = some (q.val + 1) ↔ assign_slots s.player_assignments cid p q = some c.id
      unfold assign_slots
      by_cases hq : q.val = p - 1
      · rw [if_pos hq]
        have hqp : q.val + 1 = p := by omega
        constructor
        · intro _
          rw [hcid_c]
        · intro _
          rw [hqp]
      · rw [if_neg hq]
        constructor
        · intro h
          injection h with h
          omega
        · intro h
          exfalso
          by_cases hsp : s.player_assignments q = some cid
          · rw [if_pos hsp] at h
            cases h
          · rw [if_neg hsp] at h
            rw [hcid_c] at h
            exact hsp h
    · have hcid_ne : c.id ≠ cid := by
        intro h
        exact hji (nodup_id_inj s.controllers hnd j idx c c0 hc hc0get (by rw [h, hc0id]))
      by_cases hcp : c.assigned_player = some p
      · simp only [assign_target, if_neg hji, if_pos hcp]
        show (none : Option Nat) = some (q.val + 1) ↔
          assign_slots s.player_assignments cid p q = some c.id
        unfold assign_slots
        constructor
        · intro h
          cases h
        · intro h
          exfalso
          by_cases hq : q.val = p - 1
          · rw [if_pos hq] at h
            injection h with h
            exact hcid_ne h.symm
          · rw [if_neg hq] at h
            by_cases hsp : s.player_assignments q = some cid
            · rw [if_pos hsp] at h
              cases h
            · rw [if_neg hsp] at h
              have := (hiff c hcmem q).mpr h
              rw [hcp] at this
              injection this with this
              omega
      · simp only [assign_target, if_neg hji, if_neg hcp]
        unfold assign_slots
        by_cases hq : q.val = p - 1
        · rw [if_pos hq]
          constructor
          · intro h
            exfalso
            apply hcp
            rw [h]
            congr 1
            omega
          · intro h
            injection h with h
            exact absurd h.symm hcid_ne
        · rw [if_neg hq]
          by_cases hsp : s.player_assignments q = some cid
          · rw [if_pos hsp]
            constructor
            · intro h
              exfalso
              have := (hiff c hcmem q).mp h
              rw [hsp] at this
              injection this with this
              exact hcid_ne this.symm
            · intro h
              cases h
          · rw [if_neg hsp]
            exact hiff c hcmem q

theorem unassign_inv (s : CtrlState) (hInv : CtrlInv s) (cid : Nat) :
    CtrlInv (unassign_controller s cid) := by
  obtain ⟨hnd, hrange, hiff⟩ := hInv
  by_cases hfound : ∀ c ∈ s.controllers, c.id ≠ cid
  · have hr : unassign_list cid s.controllers = (s.controllers, none) :=
      unassign_list_not_found cid s.controllers hfound
    unfold unassign_controller
    rw [hr]
    exact ⟨hnd, hrange, hiff⟩
  · push_neg at hfound
    obtain ⟨cF, hmemF, hidF⟩ := hfound
    obtain ⟨i, higet⟩ := List.mem_iff_get?.mp hmemF
    have hsnd : (unassign_list cid s.controllers).2 = cF.assigned_player :=
      unassign_list_snd_found cid s.controllers hnd i cF higet hidF
    have hfst : (unassign_list cid s.controllers).1 = clear_first_assigned cid s.controllers :=
      unassign_list_fst cid s.controllers
    have hclr : ∀ j c, s.controllers.get? j = some c →
        (clear_first_assigned cid s.controllers).get? j
          = some (if c.id = cid then { c with assigned_player := none } else c) := by
      intro j c hj
      rw [clear_first_get? cid s.controllers hnd j, hj]
      rfl
    have hback : ∀ j c2, (clear_first_assigned cid s.controllers).get? j = some c2 →
        ∃ c, s.controllers.get? j = some c
          ∧ c2 = (if c.id = cid then { c with assigned_player := none } else c) := by
      intro j c2 hj2
      cases hc : s.controllers.get? j with
      | none =>
        have hlenle : s.controllers.length ≤ j := List.get?_eq_none.mp hc
        have h2 : (clear_first_assigned cid s.controllers).get? j = none := by
          rw [List.get?_eq_none, clear_first_length]
          exact hlenle
        rw [h2] at hj2
        cases hj2
      | some c =>
        rw [hclr j c hc] at hj2
        injection hj2 with h
        exact ⟨c, rfl, h.symm⟩
    have hmapid : (clear_first_assigned cid s.controllers).map (fun c => c.id)
        = s.controllers.map (fun c => c.id) := clear_first_map_id cid s.controllers
    have hrange2 : ∀ c2 ∈ clear_first_assigned cid s.controllers, player_in_range c2 = true := by
      intro c2 hc2
      obtain ⟨j, hj2⟩ := List.mem_iff_get?.mp hc2
      obtain ⟨c, hc, rfl⟩ := hback j c2 hj2
      have hcr := hrange c (List.mem_iff_get?.mpr ⟨j, hc⟩)
      split_ifs
      · simp [player_in_range]
      · exact hcr
    have hj_eq_i : ∀ j c, s.controllers.get? j = some c → c.id = cid → j = i :=
      fun j c hj hcid => nodup_id_inj s.controllers hnd j i c cF hj higet (by rw [hcid, hidF])
    unfold unassign_controller
    rw [hfst, hsnd]
    cases hass : cF.assigned_player with
    | none =>
      refine ⟨hmapid ▸ hnd, hrange2, ?_⟩
      intro c2 hc2 q
      obtain ⟨j, hj2⟩ := List.mem_iff_get?.mp hc2
      obtain ⟨c, hc, rfl⟩ := hback j c2 hj2
      have hcmem : c ∈ s.controllers := List.mem_iff_get?.mpr ⟨j, hc⟩
      by_cases hcid : c.id = cid
      · have hji : j = i := hj_eq_i j c hc hcid
        have hccF : c = cF := by
          rw [hji] at hc
          have := hc.symm.trans higet
          injection this
      
        rw [if_pos hcid]
        show (none : Option Nat) = some (q.val + 1) ↔ s.player_assignments q = some c.id
        constructor
        · intro h
          cases h
        · intro h
          exfalso
          have := (hiff c hcmem q).mpr h
          rw [hccF, hass] at this
          cases this
      · rw [if_neg hcid]
        exact hiff c hcmem q
    | some pl =>
      refine ⟨hmapid ▸ hnd, hrange2, ?_⟩
      intro c2 hc2 q
      obtain ⟨j, hj2⟩ := List.mem_iff_get?.mp hc2
      obtain ⟨c, hc, rfl⟩ := hback j c2 hj2
      have hcmem : c ∈ s.controllers := List.mem_iff_get?.mpr ⟨j, hc⟩
      have hplrange : 1 ≤ pl ∧ pl ≤ 4 := by
        have := hrange cF hmemF
        have hM : MAX_PLAYERS = 4 := rfl
        simp only [player_in_range, hass, Bool.and_eq_true, decide_eq_true_eq] at this
        omega
      have hslotpl : ∀ q2 : Fin 4, s.player_assignments q2 = some cid ↔ q2.val = pl - 1 := by
        intro q2
        constructor
        · intro hq2
          have := (hiff cF hmemF q2).mpr (by rw [hidF]; exact hq2)
          rw [hass] at this
          injection this with this
          omega
        · intro hq2
          have hq2e : q2 = ⟨pl - 1, by omega⟩ := Fin.ext hq2
          rw [hq2e]
          have hple : pl - 1 + 1 = pl := by omega
          have := (hiff cF hmemF ⟨pl - 1, by omega⟩).mp (by rw [hple]; exact hass)
          rw [hidF] at this
          exact this
      by_cases hcid : c.id = cid
      · rw [if_pos hcid]
        show (none : Option Nat) = some (q.val + 1) ↔
          set_slot s.player_assignments (pl - 1) none q = some c.id
        constructor
        · intro h
          cases h
        · intro h
          exfalso
          simp only [set_slot] at h
          by_cases hq : q.val = pl - 1
          · rw [if_pos hq] at h
            cases h
          · rw [if_neg hq] at h
            exact hq ((hslotpl q).mp (by rw [← hcid]; exact h))
      · rw [if_neg hcid]
        show c.assigned_player = some (q.val + 1) ↔
          set_slot s.player_assignments (pl - 1) none q = some c.id
        simp only [set_slot]
        by_cases hq : q.val = pl - 1
        · rw [if_pos hq]
          constructor
          · intro h
            exfalso
            have hsq := (hiff c hcmem q).mp h
            have := (hslotpl q).mpr hq
            rw [hsq] at this
            injection this with this
            exact hcid this
          · intro h
            cases h
        · rw [if_neg hq]
          exact hiff c hcmem q

theorem auto_assign_inv (s : CtrlState) (hInv : CtrlInv s) :
    CtrlInv (auto_assign_all s)
    ∧ ∀ (q : Fin 4) (c : ConnectedController), s.controllers.get? q.val = some c →
        (auto_assign_all s).player_assignments q = some c.id
        ∧ (auto_assign_all s).controllers.get? q.val
            = some { c with assigned_player := some (q.val + 1) } := by
  obtain ⟨hnd, hrange, hiff⟩ := hInv
  have hget : ∀ j, (auto_assign_all s).controllers.get? j
      = (s.controllers.get? j).map
          (fun c => { c with assigned_player :=
            if j < MAX_PLAYERS then some (j + 1) else none }) := by
    intro j
    simpa using auto_assign_list_get? s.controllers 0 j
  have hM : MAX_PLAYERS = 4 := rfl
  constructor
  · refine ⟨?_, ?_, ?_⟩
    · have hmap : (auto_assign_all s).controllers.map (fun c => c.id)
          = s.controllers.map (fun c => c.id) := by
        apply List.ext_get?
        intro n
        rw [List.get?_map, List.get?_map, hget n]
        cases s.controllers.get? n with
        | none => rfl
        | some c => rfl
      exact hmap ▸ hnd
    · intro c2 hmem
      obtain ⟨j, hj⟩ := List.mem_iff_get?.mp hmem
      rw [hget j] at hj
      cases hc : s.controllers.get? j with
      | none =>
        rw [hc] at hj
        cases hj
      | some c =>
        rw [hc] at hj
        injection hj with hj
        subst hj
        by_cases hj4 : j < MAX_PLAYERS
        · simp only [player_in_range, if_pos hj4]
          simp only [Bool.and_eq_true, decide_eq_true_eq]
          omega
        · simp [player_in_range, if_neg hj4]
    · intro c2 hmem q
      obtain ⟨j, hj⟩ := List.mem_iff_get?.mp hmem
      rw [hget j] at hj
      cases hc : s.controllers.get? j with
      | none =>
        rw [hc] at hj
        cases hj
      | some c =>
        rw [hc] at hj
        injection hj with hj
        subst hj
        show (if j < MAX_PLAYERS then some (j + 1) else none) = some (q.val + 1)
          ↔ (s.controllers.get? q.val).map (fun c => c.id) = some c.id
        constructor
        · intro h
          by_cases hj4 : j < MAX_PLAYERS
          · rw [if_pos hj4] at h
            injection h with h
            have hjq : j = q.val := by omega
            rw [← hjq, hc]
            rfl
          · rw [if_neg hj4] at h
            cases h
        · intro h
          cases hq : s.controllers.get? q.val with
          | none =>
            rw [hq] at h
            cases h
          | some cq =>
            rw [hq] at h
            injection h with h
            have hqj : q.val = j := nodup_id_inj s.controllers hnd q.val j cq c hq hc h
            have hqlt := q.isLt
            rw [← hqj, if_pos (by omega)]
  · intro q c hqc
    constructor
    · show (s.controllers.get? q.val).map (fun c => c.id) = some c.id
      rw [hqc]
      rfl
    · rw [hget q.val, hqc]
      have hq4 : q.val < MAX_PLAYERS := by
        have := q.isLt
        omega
      simp [hq4]

/-- C6: under the controller-table invariant (distinct controller ids, player
numbers in 1..4, and the two-sided correspondence between
`controllers[i].assigned_player` and `player_assignments[p-1]`), every table
operation preserves the invariant, and auto-assign fills the slots in
connection order: the controller at connection position `q` receives player
`q+1` and slot `q` its id. -/
theorem C6_assignment_invariant (s : CtrlState) (hInv : CtrlInv s) :
    (∀ cid p s2, assign_controller_to_player s cid p = .ok s2 → CtrlInv s2)
    ∧ (∀ cid, CtrlInv (unassign_controller s cid))
    ∧ CtrlInv (auto_assign_all s)
    ∧ (∀ (q : Fin 4) (c : ConnectedController), s.controllers.get? q.val = some c →
        (auto_assign_all s).player_assignments q = some c.id
        ∧ (auto_assign_all s).controllers.get? q.val
            = some { c with assigned_player := some (q.val + 1) }) := by
  refine ⟨?_, fun cid => unassign_inv s hInv cid,
    (auto_assign_inv s hInv).1, (auto_assign_inv s hInv).2⟩
  intro cid p s2 hok
  obtain ⟨hp1, hp4, idx, c0, hc0get, hc0id, hlen, hctrl, hpa⟩ :=
    assign_ok_char s hInv cid p s2 hok
  exact assign_char_inv s s2 hInv cid p idx c0 hp1 hp4 hc0get hc0id hlen hctrl hpa

/-- Witness for C6 on the two-controller state `ctrl_state₀`: assigning
controller 1 to player 2, unassigning, and auto-assigning all preserve the
invariant, and auto-assign gives slot 0 the id of the first-connected
controller. -/
theorem C6_assignment_invariant_witness :
    CtrlInv { controllers := [{ id := 1, assigned_player := some 2 },
                              { id := 2, assigned_player := none }],
              player_assignments := set_slot (fun _ => none) 1 (some 1) }
    ∧ CtrlInv (unassign_controller ctrl_state₀ 1)
    ∧ CtrlInv (auto_assign_all ctrl_state₀)
    ∧ (auto_assign_all ctrl_state₀).player_assignments (0 : Fin 4) = some 1 := by
  have h := C6_assignment_invariant ctrl_state₀ (by decide)
  exact ⟨h.1 1 2 _ rfl, h.2.1 1, h.2.2.1,
    (h.2.2.2 (0 : Fin 4) { id := 1, assigned_player := none } rfl).1⟩
